import Mathlib

/-!
Verification development for the `ct-salto-sync` daemon.

The Rust sources are shallowly embedded: pure functions become Lean functions,
machine integers become `Nat`/`Int` with explicit reductions modulo `2 ^ w`
where overflow matters, fallible code returns `Option`/`Except`, and
environmental inputs (wall-clock time, random bytes, the local timezone
offset, network responses, the database connection) become explicit
parameters.  Each definition names the Rust item it embeds.
-/

/- # Preliminaries -/

/-- Decidable equality for `Except`, needed to evaluate the embedded fallible
functions on concrete inputs. -/
instance {ε α : Type} [DecidableEq ε] [DecidableEq α] : DecidableEq (Except ε α) :=
  fun a b =>
    match a, b with
    | .ok x, .ok y =>
      if h : x = y then .isTrue (by rw [h])
      else .isFalse (by intro hh; cases hh; exact h rfl)
    | .error x, .error y =>
      if h : x = y then .isTrue (by rw [h])
      else .isFalse (by intro hh; cases hh; exact h rfl)
    | .ok _, .error _ => .isFalse (by intro h; cases h)
    | .error _, .ok _ => .isFalse (by intro h; cases h)

/- # Bytes, hex, UTF-8, zero padding -/

/-- Arithmetic modulus for 32-bit words. -/
def M32 : Nat := 4294967296

/-- Little-endian byte encoding of `n` on `width` bytes
(Rust `u64::to_le_bytes` / `u32::to_le_bytes`). -/
def leBytes (width n : Nat) : List Nat :=
  (List.range width).map (fun i => n / 2 ^ (8 * i) % 256)

/-- Big-endian byte encoding of `n` on `width` bytes. -/
def beBytes (width n : Nat) : List Nat :=
  (List.range width).map (fun i => n / 2 ^ (8 * (width - 1 - i)) % 256)

/-- Lower-case hex digit for a nibble (as produced by the `hex` crate). -/
def hexDigit (n : Nat) : Char :=
  if n < 10 then Char.ofNat (48 + n) else Char.ofNat (87 + n)

/-- Lower-case hex encoding of a byte list (Rust `hex::encode`). -/
def hexEncode (bytes : List Nat) : String :=
  ⟨bytes.flatMap (fun b => [hexDigit (b / 16), hexDigit (b % 16)])⟩

/-- UTF-8 encoding of a string (Rust `str::as_bytes`). -/
def utf8Bytes (s : String) : List Nat :=
  s.data.flatMap (fun c =>
    let n := c.toNat
    if n < 0x80 then [n]
    else if n < 0x800 then [0xc0 + n / 64, 0x80 + n % 64]
    else if n < 0x10000 then [0xe0 + n / 4096, 0x80 + n / 64 % 64, 0x80 + n % 64]
    else [0xf0 + n / 262144, 0x80 + n / 4096 % 64, 0x80 + n / 64 % 64, 0x80 + n % 64])

/-- Decimal rendering of a `Nat`, zero-padded to two digits (chrono `%m` etc.). -/
def pad2 (n : Nat) : String :=
  if n < 10 then "0" ++ toString n else toString n

/-- Decimal rendering of a `Nat`, zero-padded to four digits (chrono `%Y`). -/
def pad4 (n : Nat) : String :=
  if n < 10 then "000" ++ toString n
  else if n < 100 then "00" ++ toString n
  else if n < 1000 then "0" ++ toString n
  else toString n

/- # Civil-date arithmetic (the proleptic Gregorian calendar used by chrono) -/

/-- Days since 1970-01-01 of the civil date `y-m-d` (Howard Hinnant's
`days_from_civil`, the algorithm underlying chrono's calendar). -/
def daysFromCivil (y : Int) (m d : Nat) : Int :=
  let yy : Int := if m ≤ 2 then y - 1 else y
  let era : Int := Int.ediv yy 400
  let yoe : Int := yy - era * 400
  let mp : Int := if m > 2 then (m : Int) - 3 else (m : Int) + 9
  let doy : Int := Int.ediv (153 * mp + 2) 5 + (d : Int) - 1
  let doe : Int := yoe * 365 + Int.ediv yoe 4 - Int.ediv yoe 100 + doy
  era * 146097 + doe - 719468

/-- Civil date `(y, m, d)` of a day count since 1970-01-01 (Hinnant's
`civil_from_days`). -/
def civilFromDays (z0 : Int) : Int × Nat × Nat :=
  let z : Int := z0 + 719468
  let era : Int := Int.ediv z 146097
  let doe : Int := z - era * 146097
  let yoe : Int :=
    Int.ediv (doe - Int.ediv doe 1460 + Int.ediv doe 36524 - Int.ediv doe 146096) 365
  let y : Int := yoe + era * 400
  let doy : Int := doe - (365 * yoe + Int.ediv yoe 4 - Int.ediv yoe 100)
  let mp : Int := Int.ediv (5 * doy + 2) 153
  let d : Int := doy - Int.ediv (153 * mp + 2) 5 + 1
  let m : Int := if mp < 10 then mp + 3 else mp - 9
  (if m ≤ 2 then y + 1 else y, m.toNat, d.toNat)

/-- Gregorian leap-year test. -/
def isLeapYear (y : Int) : Bool :=
  Int.emod y 4 = 0 && (Int.emod y 100 ≠ 0 || Int.emod y 400 = 0)

/-- Number of days of month `m` (1-12) in year `y`. -/
def daysInMonth (y : Int) (m : Nat) : Nat :=
  if m = 2 then (if isLeapYear y then 29 else 28)
  else if m = 4 ∨ m = 6 ∨ m = 9 ∨ m = 11 then 30
  else 31

/-- Validity of a civil date as enforced by chrono's `NaiveDate`. -/
def validDate (y : Int) (m d : Nat) : Bool :=
  1 ≤ m && m ≤ 12 && 1 ≤ d && d ≤ daysInMonth y m

/-- UTC instant (seconds since the epoch) of `y-m-d h:mi:s`. -/
def utcInstant (y : Int) (m d h mi s : Nat) : Int :=
  daysFromCivil y m d * 86400 + (h * 3600 + mi * 60 + s : Nat)

/-- Render an epoch instant shifted by `localOffset` seconds in chrono's
`%Y-%m-%dT%H:%M:%S` strftime format.  This embeds
`DateTime::with_timezone(&chrono::Local)` followed by `format_with_items`
(src/pull_bookings.rs:36-46): the deployment's local zone becomes the
explicit `localOffset` parameter. -/
def formatLocalTimestamp (localOffset t : Int) : String :=
  let lt : Int := t + localOffset
  let days : Int := Int.ediv lt 86400
  let sod : Nat := (Int.emod lt 86400).toNat
  let ymd := civilFromDays days
  pad4 ymd.1.toNat ++ "-" ++ pad2 ymd.2.1 ++ "-" ++ pad2 ymd.2.2 ++ "T" ++
    pad2 (sod / 3600) ++ ":" ++ pad2 (sod / 60 % 60) ++ ":" ++ pad2 (sod % 60)

/- # Rust `str::parse::<i64>` and `str::split_whitespace` -/

/-- Signed 64-bit bounds of Rust's `i64`. -/
def i64Min : Int := -9223372036854775808

def i64Max : Int := 9223372036854775807

/-- Decimal digit value of a char, if it is an ASCII digit. -/
def digitVal (c : Char) : Option Nat :=
  if 48 ≤ c.toNat ∧ c.toNat ≤ 57 then some (c.toNat - 48) else none

/-- Value of a nonempty all-digit char list. -/
def digitsVal : List Char → Option Nat
  | [] => none
  | [c] => digitVal c
  | c :: rest => do pure ((← digitVal c) * 10 ^ rest.length + (← digitsVal rest))

/-- Rust `str::parse::<i64>`: optional sign, then one or more ASCII digits,
rejecting values outside the `i64` range. -/
def parseI64L (cs : List Char) : Option Int :=
  match cs with
  | '+' :: rest => do
      let v ← digitsVal rest
      if (v : Int) ≤ i64Max then pure (v : Int) else none
  | '-' :: rest => do
      let v ← digitsVal rest
      if i64Min ≤ -(v : Int) then pure (-(v : Int)) else none
  | rest => do
      let v ← digitsVal rest
      if (v : Int) ≤ i64Max then pure (v : Int) else none

/-- Unicode `White_Space` test used by Rust's `str::split_whitespace`. -/
def wsChar (c : Char) : Bool :=
  c.toNat = 0x20 || (0x9 ≤ c.toNat && c.toNat ≤ 0xd) || c.toNat = 0x85 ||
    c.toNat = 0xa0 || c.toNat = 0x1680 ||
    (0x2000 ≤ c.toNat && c.toNat ≤ 0x200a) ||
    c.toNat = 0x2028 || c.toNat = 0x2029 || c.toNat = 0x202f ||
    c.toNat = 0x205f || c.toNat = 0x3000

/-- Rust `str::split_whitespace` on a char list: the maximal nonempty runs of
non-whitespace characters. -/
def splitWS (l : List Char) : List (List Char) :=
  (l.foldr
    (fun c acc =>
      if wsChar c then [] :: acc
      else
        match acc with
        | [] => [[c]]
        | w :: rest => (c :: w) :: rest)
    []).filter (fun w => w ≠ [])

/-- Rust `str::strip_prefix` on char lists: `some rest` iff the list starts
with the prefix. -/
def stripPrefixL : List Char → List Char → Option (List Char)
  | [], l => some l
  | _, [] => none
  | p :: ps, c :: cs => if p = c then stripPrefixL ps cs else none

/- # SHA-256 (FIPS 180-4), as used via the `sha2` crate in src/salto.rs -/

/-- Right rotation of a 32-bit word. -/
def rotr32 (x k : Nat) : Nat :=
  x / 2 ^ k + x % 2 ^ k * 2 ^ (32 - k)

/-- Unpack a packed big-endian sequence of `n` 32-bit words. -/
def unpackWords (n : Nat) (packed : Nat) : List Nat :=
  (List.range n).map (fun i => packed / 2 ^ (32 * (n - 1 - i)) % M32)

/-- The 64 SHA-256 round constants (the fractional parts of the cube roots of
the first 64 primes, FIPS 180-4 section 4.2.2), packed into one literal. -/
def sha256K : List Nat :=
  unpackWords 64 8399870144517823301722239222130927227141849779511242471197906795369846673996008864786532278482947930035050432913372875699354429524650716672308175015812472005008943341011247634627600705591103756174659437448007297240981034636327441933849465611186184660803773840414514428031635770391245199770927811112653141372483794982516161135727373084047811483050876080270389320947077305721183235613169389468744126235534648516788175255292025668825020963291224099932572215580391753777671218957634024159536228058522778003881673030597872562207069818177476920296259993961459554031943090626293016819766823808480230688357231269177224952050

/-- The eight 32-bit working variables of SHA-256. -/
structure Sha256State where
  a : Nat
  b : Nat
  c : Nat
  d : Nat
  e : Nat
  f : Nat
  g : Nat
  h : Nat
deriving DecidableEq

/-- SHA-256 initial hash value (FIPS 180-4 section 5.3.3), packed into one
literal. -/
def sha256Init : Sha256State :=
  match unpackWords 8 47962653771679561900652889051773562940742041696833059450490514104358170316057 with
  | [a, b, c, d, e, f, g, h] => ⟨a, b, c, d, e, f, g, h⟩
  | _ => ⟨0, 0, 0, 0, 0, 0, 0, 0⟩

def sha256SmallSigma0 (x : Nat) : Nat :=
  Nat.xor (Nat.xor (rotr32 x 7) (rotr32 x 18)) (x / 2 ^ 3)

def sha256SmallSigma1 (x : Nat) : Nat :=
  Nat.xor (Nat.xor (rotr32 x 17) (rotr32 x 19)) (x / 2 ^ 10)

def sha256BigSigma0 (x : Nat) : Nat :=
  Nat.xor (Nat.xor (rotr32 x 2) (rotr32 x 13)) (rotr32 x 22)

def sha256BigSigma1 (x : Nat) : Nat :=
  Nat.xor (Nat.xor (rotr32 x 6) (rotr32 x 11)) (rotr32 x 25)

def sha256Ch (e f g : Nat) : Nat :=
  Nat.xor (Nat.land e f) (Nat.land (Nat.xor e 0xffffffff) g)

def sha256Maj (a b c : Nat) : Nat :=
  Nat.xor (Nat.xor (Nat.land a b) (Nat.land a c)) (Nat.land b c)

/-- Extend the reversed message-schedule word list by `n` entries
(the head of the list is the most recent word). -/
def sha256ExtendRev : Nat → List Nat → List Nat
  | 0, ws => ws
  | n + 1, ws =>
    let w2 := ws.getD 1 0
    let w7 := ws.getD 6 0
    let w15 := ws.getD 14 0
    let w16 := ws.getD 15 0
    sha256ExtendRev n
      (((sha256SmallSigma1 w2 + w7 + sha256SmallSigma0 w15 + w16) % M32) :: ws)

/-- One SHA-256 round, consuming a `(K, W)` pair. -/
def sha256Round (st : Sha256State) (kw : Nat × Nat) : Sha256State :=
  let t1 := (st.h + sha256BigSigma1 st.e + sha256Ch st.e st.f st.g + kw.1 + kw.2) % M32
  let t2 := (sha256BigSigma0 st.a + sha256Maj st.a st.b st.c) % M32
  ⟨(t1 + t2) % M32, st.a, st.b, st.c, (st.d + t1) % M32, st.e, st.f, st.g⟩

/-- Big-endian 32-bit words of a byte list. -/
def bytesToWordsBE : List Nat → List Nat
  | b1 :: b2 :: b3 :: b4 :: rest =>
    (b1 * 16777216 + b2 * 65536 + b3 * 256 + b4) :: bytesToWordsBE rest
  | _ => []

/-- SHA-256 compression of one 64-byte block. -/
def sha256Compress (st : Sha256State) (block : List Nat) : Sha256State :=
  let w16 := bytesToWordsBE block
  let ws := (sha256ExtendRev 48 w16.reverse).reverse
  let r := (sha256K.zip ws).foldl sha256Round st
  ⟨(st.a + r.a) % M32, (st.b + r.b) % M32, (st.c + r.c) % M32, (st.d + r.d) % M32,
   (st.e + r.e) % M32, (st.f + r.f) % M32, (st.g + r.g) % M32, (st.h + r.h) % M32⟩

/-- SHA-256 padding: `0x80`, zeros to 56 mod 64, then the bit length on
8 big-endian bytes. -/
def sha256Pad (msg : List Nat) : List Nat :=
  let l := msg.length
  let k := (119 - l % 64) % 64
  msg ++ [0x80] ++ List.replicate k 0 ++ beBytes 8 (8 * l)

/-- Split a list into 64-element chunks (fuelled structural recursion). -/
def chunks64 : Nat → List Nat → List (List Nat)
  | 0, _ => []
  | _, [] => []
  | fuel + 1, l => l.take 64 :: chunks64 fuel (l.drop 64)

/-- Big-endian bytes of a word list. -/
def wordsToBytesBE (ws : List Nat) : List Nat :=
  ws.flatMap (fun w => beBytes 4 w)

/-- SHA-256 digest (32 bytes) of a byte message. -/
def sha256 (msg : List Nat) : List Nat :=
  let padded := sha256Pad msg
  let final := (chunks64 padded.length padded).foldl sha256Compress sha256Init
  wordsToBytesBE [final.a, final.b, final.c, final.d, final.e, final.f, final.g, final.h]

/- # Salto authentication hashing (src/salto.rs:91-119) -/

/-- The 32 raw salt bytes built by `salto_salt` (src/salto.rs:91-102):
bytes 0-7 are the seconds since the epoch in little-endian, bytes 8-11 the
sub-second milliseconds in little-endian, bytes 12-31 the 20 random bytes.
The wall clock and the RNG are environmental and become parameters. -/
def saltoSaltBytes (nowSecs nowMillis : Nat) (randomTail : List Nat) : List Nat :=
  leBytes 8 (nowSecs % 2 ^ 64) ++ leBytes 4 (nowMillis % 2 ^ 32) ++ randomTail

/-- Embeds `salto_salt` (src/salto.rs:91-102): the hex encoding of the 32 raw salt
bytes. -/
def salto_salt (nowSecs nowMillis : Nat) (randomTail : List Nat) : String :=
  hexEncode (saltoSaltBytes nowSecs nowMillis randomTail)

/-- Embeds `salto_password_hash` (src/salto.rs:109-119): the hex salt string,
followed by the hex SHA-256 of the hex salt string's bytes followed by the
password's bytes.  Note the hasher is updated with `salto_salt.as_bytes()`,
i.e. with the 64 ASCII bytes of the hex encoding, not with the 32 raw salt
bytes. -/
def salto_password_hash (nowSecs nowMillis : Nat) (randomTail : List Nat)
    (password : String) : String :=
  let salt := salto_salt nowSecs nowMillis randomTail
  salt ++ hexEncode (sha256 (utf8Bytes salt ++ utf8Bytes password))

/-- The password hash as the spec words it ("Password hash = hex(salt)
concatenated with hex(SHA-256(salt_bytes ‖ password_bytes))"): the SHA-256
preimage is the 32 raw salt bytes followed by the password bytes.  Stated
from the spec for comparison against `salto_password_hash`. -/
def specPasswordHashRawSaltPreimage (nowSecs nowMillis : Nat)
    (randomTail : List Nat) (password : String) : String :=
  let saltBytes := saltoSaltBytes nowSecs nowMillis randomTail
  hexEncode saltBytes ++ hexEncode (sha256 (saltBytes ++ utf8Bytes password))

/- # CT data model and errors (src/ct.rs) -/

/-- A CT time frame, raw as received (src/ct.rs:149-155). -/
structure Timeframe where
  startDate : String
  endDate : String
deriving DecidableEq

/-- The payload of CT's appointment endpoint (src/ct.rs:139-147).  The
day-keyed `calculatedDates` map of a repeating appointment is embedded as an
association list. -/
structure FullAppointmentData where
  calculatedDates : Option (List (String × Timeframe))
  calculated : Option Timeframe
deriving DecidableEq

/-- Kinds of chrono parse errors distinguished by src/ct.rs:487 (`TooShort`
triggers the date-only fallback; every other kind propagates). -/
inductive ParseErrKind where
  | tooShort
  | tooLong
  | invalid
  | outOfRange
deriving DecidableEq

/-- Embeds `CTApiError` (src/ct.rs:34-44).  Transport errors carry no payload here;
`ParseTime` carries the chrono error kind and the offending string. -/
inductive CTApiError where
  | getBookings
  | getGroupMembers
  | getAppointments
  | deserialize
  | utf8Decode
  | parseTime (kind : ParseErrKind) (s : String)
  | noCalculatedDateTimeOnDay (appointment : Int) (day : String)
  | noCalculatedDateTime (appointment : Int)
deriving DecidableEq

/-- Association-list lookup with Rust `HashMap::remove`'s found-value
semantics (first match). -/
def alistFind (m : List (String × Timeframe)) (k : String) : Option Timeframe :=
  match m with
  | [] => none
  | (k0, v) :: rest => if k0 = k then some v else alistFind rest k

/-- The decision tail of `get_appointment` (src/ct.rs:205-214), applied to an
already fetched and deserialized response: a repeating appointment's
day-keyed map takes precedence; a missing day in the map is
`NoCalculatedDateTimeOnDay`; with no map, a missing single calculated time is
`NoCalculatedDateTime`. -/
def get_appointment (data : FullAppointmentData) (appointmentId : Int)
    (day : String) : Except CTApiError Timeframe :=
  match data.calculatedDates with
  | some m =>
    match alistFind m day with
    | some tf => .ok tf
    | none => .error (.noCalculatedDateTimeOnDay appointmentId day)
  | none =>
    match data.calculated with
    | some tf => .ok tf
    | none => .error (.noCalculatedDateTime appointmentId)

/-- Embeds `groups_from_description` (src/ct.rs:219-225): split the note on
whitespace, keep tokens starting with the magic prefix, parse the rest as an
`i64` group id. -/
def groups_from_description (description magicPref : String) : List Int :=
  ((splitWS description.data).filterMap (fun w => stripPrefixL magicPref.data w)).filterMap
    (fun groupId => parseI64L groupId)

/-- Embeds `get_permitted_transponders` (src/ct.rs:365-379), with the network
replaced by its observable data: `groupMembers g` is the transponder-id list
CT returns for group `g` (`get_transponder_ids_in_group`), and
`creatorTransponder` the creator's optional transponder id
(`get_transponder_id_of_user`).  Group member lists are concatenated in group
order and the creator is pushed at the end when known. -/
def get_permitted_transponders (groupMembers : Int → List Int)
    (creatorTransponder : Option Int) (groups : List Int) : List Int :=
  groups.flatMap groupMembers ++ creatorTransponder.toList

/- # chrono timestamp parsing as used in src/ct.rs:483-524 -/

/-- Read one ASCII digit; an exhausted input is `TooShort`, a non-digit is
`Invalid` (mirroring chrono's scanner). -/
def readDigit : List Char → Except ParseErrKind (Nat × List Char)
  | [] => .error .tooShort
  | c :: rest =>
    match digitVal c with
    | some d => .ok (d, rest)
    | none => .error .invalid

/-- Read two ASCII digits. -/
def read2 (cs : List Char) : Except ParseErrKind (Nat × List Char) := do
  let (d1, cs) ← readDigit cs
  let (d2, cs) ← readDigit cs
  .ok (d1 * 10 + d2, cs)

/-- Read four ASCII digits. -/
def read4 (cs : List Char) : Except ParseErrKind (Nat × List Char) := do
  let (d1, cs) ← read2 cs
  let (d2, cs) ← read2 cs
  .ok (d1 * 100 + d2, cs)

/-- Expect one literal character. -/
def expectChar (c : Char) : List Char → Except ParseErrKind (List Char)
  | [] => .error .tooShort
  | c0 :: rest => if c0 = c then .ok rest else .error .invalid

/-- Scan `YYYY-MM-DD` without range validation (chrono validates only when
resolving the parsed fields). -/
def readDateFields (cs : List Char) :
    Except ParseErrKind ((Nat × Nat × Nat) × List Char) := do
  let (y, cs) ← read4 cs
  let cs ← expectChar '-' cs
  let (mo, cs) ← read2 cs
  let cs ← expectChar '-' cs
  let (d, cs) ← read2 cs
  .ok ((y, mo, d), cs)

/-- Scan `HH:MM:SS` without range validation. -/
def readTimeFields (cs : List Char) :
    Except ParseErrKind ((Nat × Nat × Nat) × List Char) := do
  let (h, cs) ← read2 cs
  let cs ← expectChar ':' cs
  let (mi, cs) ← read2 cs
  let cs ← expectChar ':' cs
  let (s, cs) ← read2 cs
  .ok ((h, mi, s), cs)

/-- Scan an optional fractional-second part: a dot followed by at least one
digit.  The value is discarded (the embedding works in whole seconds). -/
def readFraction : List Char → Except ParseErrKind (List Char)
  | '.' :: rest => do
    let (_, cs) ← readDigit rest
    .ok (cs.dropWhile (fun c => (digitVal c).isSome))
  | cs => .ok cs

/-- Scan an RFC 3339 offset: `Z`/`z` or `±HH:MM`, returned in seconds. -/
def readOffset : List Char → Except ParseErrKind (Int × List Char)
  | [] => .error .tooShort
  | 'Z' :: rest => .ok (0, rest)
  | 'z' :: rest => .ok (0, rest)
  | '+' :: rest => do
    let (h, cs) ← read2 rest
    let cs ← expectChar ':' cs
    let (mi, cs) ← read2 cs
    .ok ((h * 3600 + mi * 60 : Nat), cs)
  | '-' :: rest => do
    let (h, cs) ← read2 rest
    let cs ← expectChar ':' cs
    let (mi, cs) ← read2 cs
    .ok (-(h * 3600 + mi * 60 : Nat), cs)
  | _ => .error .invalid

/-- Range validation of scanned date and time fields, as chrono's resolution
step performs it (leap seconds are folded into second 59). -/
def validateDateTime (y mo d h mi s : Nat) : Bool :=
  validDate (y : Int) mo d && h ≤ 23 && mi ≤ 59 && s ≤ 60

/-- chrono `DateTime::parse_from_rfc3339`, yielding the UTC instant in epoch
seconds: date, `T`/`t`/space separator, time, optional fraction, offset,
end of input, then range validation. -/
def parseRfc3339 (cs0 : List Char) : Except ParseErrKind Int :=
  match readDateFields cs0 with
  | .error k => .error k
  | .ok (ymd, cs1) =>
    match cs1 with
    | [] => .error ParseErrKind.tooShort
    | c :: cs2 =>
      if c = 'T' ∨ c = 't' ∨ c = ' ' then
        match readTimeFields cs2 with
        | .error k => .error k
        | .ok (hms, cs3) =>
          match readFraction cs3 with
          | .error k => .error k
          | .ok cs4 =>
            match readOffset cs4 with
            | .error k => .error k
            | .ok (off, cs5) =>
              match cs5 with
              | _ :: _ => .error ParseErrKind.tooLong
              | [] =>
                if validateDateTime ymd.1 ymd.2.1 ymd.2.2 hms.1 hms.2.1 hms.2.2 then
                  .ok (utcInstant (ymd.1 : Int) ymd.2.1 ymd.2.2
                    hms.1 hms.2.1 (min hms.2.2 59) - off)
                else .error ParseErrKind.outOfRange
      else .error ParseErrKind.invalid

/-- chrono `NaiveDate::parse_from_str` with format `%Y-%m-%d`: the scanned
date fields, requiring the input to be exhausted and the date valid. -/
def parseDateOnly (cs0 : List Char) : Except ParseErrKind (Nat × Nat × Nat) :=
  match readDateFields cs0 with
  | .error k => .error k
  | .ok (ymd, cs1) =>
    match cs1 with
    | _ :: _ => .error ParseErrKind.tooLong
    | [] =>
      if validDate (ymd.1 : Int) ymd.2.1 ymd.2.2 then .ok ymd
      else .error ParseErrKind.outOfRange

/-- The start-time resolution of src/ct.rs:483-504: RFC 3339 first; on a
`TooShort` error fall back to `%Y-%m-%d` with time 00:00:00 treated as UTC;
every remaining failure is a `ParseTime` error carrying the input. -/
def resolveStartTime (s : String) : Except CTApiError Int :=
  match parseRfc3339 s.data with
  | .ok t => .ok t
  | .error k =>
    if k = ParseErrKind.tooShort then
      match parseDateOnly s.data with
      | .ok ymd => .ok (utcInstant (ymd.1 : Int) ymd.2.1 ymd.2.2 0 0 0)
      | .error k2 => .error (.parseTime k2 s)
    else .error (.parseTime k s)

/-- The end-time resolution of src/ct.rs:505-524: as `resolveStartTime`, but
a date-only value resolves to 23:59:59 of that day. -/
def resolveEndTime (s : String) : Except CTApiError Int :=
  match parseRfc3339 s.data with
  | .ok t => .ok t
  | .error k =>
    if k = ParseErrKind.tooShort then
      match parseDateOnly s.data with
      | .ok ymd => .ok (utcInstant (ymd.1 : Int) ymd.2.1 ymd.2.2 23 59 59)
      | .error k2 => .error (.parseTime k2 s)
    else .error (.parseTime k s)

/- # Booking resolution (src/ct.rs:442-530) -/

/-- The `base`+`calculated` projection of one raw CT booking
(src/ct.rs:87-130).  `appointment` is `some (appointmentId, calendarId)` when
the booking was created from a calendar appointment. -/
structure BookingsData where
  id : Int
  resourceId : Int
  appointment : Option (Int × Int)
  description : Option String
  createdPersonId : Int
  calculatedStartDate : String
  calculatedEndDate : String
deriving DecidableEq

/-- Embeds `x.calculated.start_date.split('T').next()` (src/ct.rs:453-458): the
prefix of the resource's calculated start date before the first `T`. -/
def startDayOf (startDate : String) : String :=
  ⟨startDate.data.takeWhile (fun c => c ≠ 'T')⟩

/-- The raw start/end-date selection of src/ct.rs:448-467: a booking created
from a calendar appointment takes the appointment's calculated time for the
booking's start day (fetched via `get_appointment`), otherwise the resource's
own calculated time is kept.  `fetch aid cid` is the deserialized response of
`/api/calendars/{cid}/appointments/{aid}`. -/
def resolveRawBookingTimes (fetch : Int → Int → FullAppointmentData)
    (x : BookingsData) : Except CTApiError (String × String) :=
  match x.appointment with
  | some (appointmentId, calendarId) =>
    match get_appointment (fetch appointmentId calendarId) appointmentId
        (startDayOf x.calculatedStartDate) with
    | .ok tf => .ok (tf.startDate, tf.endDate)
    | .error e => .error e
  | none => .ok (x.calculatedStartDate, x.calculatedEndDate)

/- # Access encoding (src/pull_bookings.rs) -/

/-- A fully resolved booking (`Booking` as built in src/ct.rs:479-525):
times in epoch seconds UTC, plus the permitted transponder ids. -/
structure Booking where
  id : Int
  resourceId : Int
  permittedTransponders : List Int
  startTime : Int
  endTime : Int
deriving DecidableEq

/-- An entry for the staging table (src/pull_bookings.rs:17-24). -/
structure StagingEntry where
  extUserId : String
  extZoneIdList : String
deriving DecidableEq

/-- The static room map of the configuration, and the encoder's scalar
settings (src/config.rs): hold times and the sync frequency in seconds, the
fixed timetable id, and the deployment's local timezone offset in seconds
(environmental input of `chrono::Local`). -/
structure EncoderConfig where
  rooms : List (Int × String)
  timetableId : Nat
  preholdTime : Int
  postholdTime : Int
  syncFrequency : Int
  localOffset : Int

/-- Embeds `Config::room_ext_id` (src/config.rs:129-136): first room whose CT id
matches. -/
def room_ext_id (rooms : List (Int × String)) (resourceId : Int) : Option String :=
  (rooms.find? (fun room => room.1 = resourceId)).map (fun room => room.2)

/-- Embeds `salto_single_permitted_zone_format` (src/pull_bookings.rs:30-47): the
literal `{"<zone-ext-id>",<timetable-id>,<start>,<end>}` with start and end
rendered in local time. -/
def salto_single_permitted_zone_format (localOffset : Int) (zoneExtId : String)
    (timetableId : Nat) (startTime endTime : Int) : String :=
  "\x7b\"" ++ zoneExtId ++ "\"," ++ toString timetableId ++ "," ++
    formatLocalTimestamp localOffset startTime ++ "," ++
    formatLocalTimestamp localOffset endTime ++ "\x7d"

/-- Association-list lookup by transponder id. -/
def zlLookup (m : List (Int × String)) (k : Int) : Option String :=
  match m with
  | [] => none
  | (k0, v) :: rest => if k0 = k then some v else zlLookup rest k

/-- The `HashMap::entry(..).and_modify(..).or_insert(..)` step of
src/pull_bookings.rs:84-92, determinized as an association list keyed by
transponder id: an existing zone list gets `,record` appended, a missing one
is created as the single record. -/
def addZoneRecord (m : List (Int × String)) (transponder : Int)
    (record : String) : List (Int × String) :=
  if (zlLookup m transponder).isSome then
    m.map (fun e => if e.1 = transponder then (e.1, e.2 ++ "," ++ record) else e)
  else m ++ [(transponder, record)]

/-- The per-booking step of the loop in src/pull_bookings.rs:60-93: skip the
booking when now is past the posthold tail or more than the prehold plus one
sync interval before the start; skip it when its resource has no configured
zone; otherwise append its single formatted record for every permitted
transponder. -/
def stepBooking (cfg : EncoderConfig) (now : Int) (m : List (Int × String))
    (booking : Booking) : List (Int × String) :=
  if now > booking.endTime + cfg.postholdTime ∨
      now < booking.startTime - cfg.preholdTime - cfg.syncFrequency then m
  else
    match room_ext_id cfg.rooms booking.resourceId with
    | none => m
    | some zoneExtId =>
      booking.permittedTransponders.foldl
        (fun acc transponder => addZoneRecord acc transponder
          (salto_single_permitted_zone_format cfg.localOffset zoneExtId
            cfg.timetableId booking.startTime booking.endTime)) m

/-- The zone-list accumulation of `convert_to_staging_entries`
(src/pull_bookings.rs:58-93): fold all bookings into the per-transponder
zone-list map. -/
def buildZoneLists (cfg : EncoderConfig) (now : Int) (bookings : List Booking) :
    List (Int × String) :=
  bookings.foldl (stepBooking cfg now) []

/-- Embeds `convert_to_staging_entries` (src/pull_bookings.rs:54-112): accumulate
zone lists per transponder, then resolve transponders to Salto ExtIds
(`extIdOf` stands for the mapping `get_ext_ids_by_transponder` returns) and
keep one staging entry per transponder with a resolvable ExtId.  The
iteration order of the result `HashMap` is determinized to first-insertion
order of the zone-list map. -/
def convert_to_staging_entries (cfg : EncoderConfig) (now : Int)
    (extIdOf : Int → Option String) (bookings : List Booking) :
    List StagingEntry :=
  (buildZoneLists cfg now bookings).filterMap
    (fun e => (extIdOf e.1).map (fun extId => ⟨extId, e.2⟩))

/- # The staging table and its reconciliation (src/db.rs) -/

/-- One row of the `salto_staging` intake table.  `extId` is the key column;
`extZoneIdList` the payload; the remaining vendor bookkeeping columns are the
ones touched by src/db.rs:42-51. -/
structure StagingRow where
  extId : String
  extZoneIdList : String
  toBeProcessedBySalto : Int
  processedDateTime : Option String
  errorCode : Option Int
  errorMessage : Option String
deriving DecidableEq

/-- The staging table. -/
abbrev StagingTable := List StagingRow

/-- Whether the table has a row with the given key. -/
def hasExtId (t : StagingTable) (extId : String) : Bool :=
  t.any (fun r => r.extId = extId)

/-- Modelled from the spec: the column defaults of the `salto_staging`
migration, which is not under src/ (only `sqlx::migrate!()` in src/main.rs
refers to it).  Per §6, the vendor bookkeeping fields are ones "this system
must reset on every write", so a freshly inserted row carries them in their
reset state: marked to be processed, no processing timestamp, no error. -/
def freshStagingRow (e : StagingEntry) : StagingRow :=
  ⟨e.extUserId, e.extZoneIdList, 1, none, none, none⟩

/-- Embeds `upsert_staging_entry` (src/db.rs:38-59): insert the entry, or on an
`ExtID` conflict overwrite the zone list and reset the vendor bookkeeping
columns (`ToBeProcessedBySalto = 1`, the others `NULL`). -/
def upsert_staging_entry (t : StagingTable) (e : StagingEntry) : StagingTable :=
  if hasExtId t e.extUserId then
    t.map (fun r =>
      if r.extId = e.extUserId then
        ⟨r.extId, e.extZoneIdList, 1, none, none, none⟩
      else r)
  else t ++ [freshStagingRow e]

/-- Embeds `remove_entry_by_extid` (src/db.rs:72-84): despite its name, the row is
kept and only its `ExtZoneIDList` column is set to the empty string. -/
def remove_entry_by_extid (t : StagingTable) (extId : String) : StagingTable :=
  t.map (fun r => if r.extId = extId then { r with extZoneIdList := "" } else r)

/-- Embeds `overwrite_staging_table_with` (src/db.rs:87-111), one transaction:
read the existing keys, blank every existing key not among the desired
entries, then upsert every desired entry. -/
def overwrite_staging_table_with (t : StagingTable) (entries : List StagingEntry) :
    StagingTable :=
  let existingOutdated := (t.map (fun r => r.extId)).filter
    (fun existingExtId => entries.all (fun newEntry => newEntry.extUserId ≠ existingExtId))
  let blanked := existingOutdated.foldl remove_entry_by_extid t
  entries.foldl upsert_staging_entry blanked

/- # The Salto user stream (src/salto.rs:291-405) -/

/-- A raw directory record as returned by `GetUserListStartingFromItem`
(a `serde_json::Value` in the source): the two fields the deserializer
projects, each possibly missing or malformed. -/
structure RawRecord where
  extId : Option String
  title : Option String
deriving DecidableEq

/-- Embeds `SaltoUser` (src/salto.rs:69-85): the `Title` field must parse as an
`i64` transponder id. -/
structure SaltoUser where
  extId : String
  transponderId : Int
deriving DecidableEq

/-- Stream error kinds distinguished by `get_ext_ids_by_transponder`
(src/salto.rs:389-403): deserialization failures are skipped, transport
failures abort. -/
inductive StreamErr where
  | deserialize
  | transport
deriving DecidableEq

/-- Embeds `serde_json::from_value::<SaltoUser>` (src/salto.rs:354-355 with the
deserializer of src/salto.rs:69-85). -/
def parseSaltoUser (r : RawRecord) : Except StreamErr SaltoUser :=
  match r.extId, r.title with
  | some e, some t =>
    match parseI64L t.data with
    | some n => .ok ⟨e, n⟩
    | none => .error .deserialize
  | _, _ => .error .deserialize

/-- Embeds `SaltoUserStream::poll_next` (src/salto.rs:322-374) run to completion,
with the vendor behind `server : Option RawRecord → List RawRecord` (the page
returned for a given `startingItem` cursor).  The buffered page is drained
one record at a time; on an empty buffer the next page is fetched with the
full raw last record of the previous page as cursor; an empty page ends the
stream.  `fuel` bounds the number of polls (the theorems supply enough). -/
def runStream (server : Option RawRecord → List RawRecord) :
    Nat → Option RawRecord → List RawRecord → List (Except StreamErr SaltoUser)
  | 0, _, _ => []
  | fuel + 1, cursor, buf =>
    match buf with
    | r :: rest => parseSaltoUser r :: runStream server fuel cursor rest
    | [] =>
      match server cursor with
      | [] => []
      | p :: ps => runStream server fuel (some (ps.getLastD p)) (p :: ps)

/-- The states the directory enumeration visits for a given page list: the
first fetch (cursor `none`) returns the first page, the fetch cursored at a
page's full raw last record returns the following page, and the fetch after
the last page returns the empty page.  This is the "N full pages then one
empty page" server behaviour of the spec, as a predicate on `server`. -/
def servesPages (server : Option RawRecord → List RawRecord) :
    Option RawRecord → List (List RawRecord) → Bool
  | cursor, [] => server cursor = []
  | cursor, p :: rest =>
    match p with
    | [] => false
    | q :: qs => server cursor = p && servesPages server (some (qs.getLastD q)) rest

/-- Update step of `get_ext_ids_by_transponder` (src/salto.rs:394-397):
`entry(..).and_modify(..)` sets the ExtId only for transponders already
requested. -/
def noteUser (res : List (Int × Option String)) (u : SaltoUser) :
    List (Int × Option String) :=
  res.map (fun e => if e.1 = u.transponderId then (e.1, some u.extId) else e)

/-- The consuming loop of `get_ext_ids_by_transponder` (src/salto.rs:389-403):
start from all requested transponders mapped to `none`; a deserialization
failure is skipped; a well-formed user updates the mapping; any other error
aborts the whole enumeration. -/
def consumeUsers (res : List (Int × Option String)) :
    List (Except StreamErr SaltoUser) → Except StreamErr (List (Int × Option String))
  | [] => .ok res
  | .error .deserialize :: rest => consumeUsers res rest
  | .error e :: _ => .error e
  | .ok u :: rest => consumeUsers (noteUser res u) rest

/-- Embeds `get_ext_ids_by_transponder` (src/salto.rs:381-405) over a pure server:
consume the whole enumeration once, starting from the requested transponders
all unresolved. -/
def get_ext_ids_by_transponder (server : Option RawRecord → List RawRecord)
    (fuel : Nat) (transponders : List Int) :
    Except StreamErr (List (Int × Option String)) :=
  consumeUsers (transponders.map (fun tr => (tr, none))) (runStream server fuel none [])

/- # The write_staging resident task (src/write_staging.rs) -/

/-- Outcome of polling a resident task to completion. -/
inductive StagingTaskOutcome where
  | panicked (msg : String)
  | finished
deriving DecidableEq

/-- Embeds `keep_staging_table_up_to_date` (src/write_staging.rs:7-18): the whole
body is `todo!()`, so the first poll of the future panics with Rust's
canonical `todo!` message, whatever the config and channels are. -/
def keep_staging_table_up_to_date (_config _watcher _shutdownTx : Unit) :
    StagingTaskOutcome :=
  .panicked "not yet implemented"

/-- The long-lived tasks spawned by `main` (src/main.rs:169-174), in spawn
order. -/
inductive SpawnedTask where
  | pullBookingsTask
  | writeStagingTask
  | signalHandlerTask
deriving DecidableEq

/-- src/main.rs:169-174: `main` spawns the bookings sync task, the staging
writer task and the signal handler. -/
def mainSpawnedTasks : List SpawnedTask :=
  [.pullBookingsTask, .writeStagingTask, .signalHandlerTask]

/- # Concrete fixture: the spec's walk-through scenario (spec §8) -/

/-- Scenario group memberships: group 7 has the single member transponder
200. -/
def scenarioGroupMembers (g : Int) : List Int :=
  if g = 7 then [200] else []

/-- Scenario directory: transponders 100 and 200 resolve to Salto ExtIds. -/
def scenarioExtIds (tr : Int) : Option String :=
  if tr = 100 then some "E100" else if tr = 200 then some "E200" else none

/-- Scenario directory where transponder 200 has no resolvable ExtId. -/
def scenarioExtIdsNo200 (tr : Int) : Option String :=
  if tr = 100 then some "E100" else none

/-- Scenario encoder configuration at local offset `o`: resource 1 maps to
zone "Z1", timetable id 0, prehold 10 min, posthold 5 min, sync frequency
300 s. -/
def scenarioConfigAt (o : Int) : EncoderConfig :=
  ⟨[(1, "Z1")], 0, 600, 300, 300, o⟩

/-- Scenario booking 42: resource 1, window 13:00-14:00 UTC on 2025-11-24,
created by the person with transponder 100, note "ACCESS:7". -/
def scenarioBooking : Booking :=
  ⟨42, 1,
   get_permitted_transponders scenarioGroupMembers (some 100)
     (groups_from_description "ACCESS:7" "ACCESS:"),
   utcInstant 2025 11 24 13 0 0, utcInstant 2025 11 24 14 0 0⟩

/-- Scenario evaluation instant: 13:05 UTC. -/
def scenarioNow : Int := utcInstant 2025 11 24 13 5 0

/-- The single grant record the encoder actually produces in the scenario at
local offset `o`: zone "Z1", timetable 0, and the booking's own 13:00-14:00
window rendered in local time. -/
def scenarioRecordAt (o : Int) : String :=
  salto_single_permitted_zone_format o "Z1" 0
    (utcInstant 2025 11 24 13 0 0) (utcInstant 2025 11 24 14 0 0)

/- # Proof-infrastructure definitions and witness fixtures -/

/-- The external ids of a desired entry list. -/
def idsOf (es : List StagingEntry) : List String :=
  es.map (fun e => e.extUserId)

/-- A row overwritten by an upsert conflict: zone list from the entry, vendor
bookkeeping reset. -/
def resetWith (r : StagingRow) (z : String) : StagingRow :=
  ⟨r.extId, z, 1, none, none, none⟩

/-- The per-row effect of one conflicting upsert. -/
def updEntry (e : StagingEntry) (r : StagingRow) : StagingRow :=
  if r.extId = e.extUserId then resetWith r e.extZoneIdList else r

/-- The per-row effect of a whole upsert pass (when every key is present). -/
def updAll (es : List StagingEntry) (r : StagingRow) : StagingRow :=
  es.foldl (fun r0 e => updEntry e r0) r

/-- The zone list of the last entry with key `k`, scanning left to right with
an accumulator. -/
def lastZoneFrom (acc : Option String) (k : String) : List StagingEntry → Option String
  | [] => acc
  | e :: rest => lastZoneFrom (if e.extUserId = k then some e.extZoneIdList else acc) k rest

/-- Concrete appointment directory for the C4 witness: appointment 5 in
calendar 6 is repeating, with an occurrence on 2025-11-24 and also a single
calculated time (so the map's precedence is visible). -/
def witnessApptFetch (aid _cid : Int) : FullAppointmentData :=
  if aid = 5 then
    ⟨some [("2025-11-24", ⟨"2025-11-24T09:00:00Z", "2025-11-24T11:30:00Z"⟩)],
      some ⟨"2025-12-01T09:00:00Z", "2025-12-01T11:30:00Z"⟩⟩
  else ⟨none, none⟩

/-- Concrete raw booking for the C4 witness: created from appointment (5, 6),
resource-calculated times on 2025-11-24. -/
def witnessApptBooking : BookingsData :=
  ⟨1, 2, some (5, 6), none, 7, "2025-11-24T08:00:00Z", "2025-11-24T12:00:00Z"⟩

/-- Enough polls to drain all pages: every record, one fetch per page, plus
the final empty-page fetch. -/
def pagesFuel (pages : List (List RawRecord)) : Nat :=
  (pages.map List.length).sum + pages.length + 1

/-- Two concrete directory pages for the C8 witness: page one holds a
well-formed user and a user with a malformed (non-numeric) title, page two a
second well-formed user. -/
def witnessPages : List (List RawRecord) :=
  [[⟨some "E1", some "1"⟩, ⟨some "E2", some "bad"⟩], [⟨some "E3", some "3"⟩]]

/-- The C8 witness server: first page at the empty cursor, second page at the
full raw last record of page one, the empty page afterwards. -/
def witnessServer (cursor : Option RawRecord) : List RawRecord :=
  match cursor with
  | none => [⟨some "E1", some "1"⟩, ⟨some "E2", some "bad"⟩]
  | some r => if r = ⟨some "E2", some "bad"⟩ then [⟨some "E3", some "3"⟩] else []

/-- Comma-append `n` further copies of the record `rec` to a zone list that
already reads `z` (the result of `n` further `and_modify` appends in
src/pull_bookings.rs:84-92). -/
def appendRecTimes (rec z : String) : Nat → String
  | 0 => z
  | n + 1 => appendRecTimes rec (z ++ "," ++ rec) n

/-- Group memberships in which the booking creator also belongs to the
referenced group: group 7 has the single member transponder 100. -/
def dupGroupMembers (g : Int) : List Int :=
  if g = 7 then [100] else []

/-- Booking 43: like the scenario booking, but its creator (transponder 100)
is also a member of referenced group 7, so the resolved permitted list is
[100, 100] — `get_permitted_transponders` (src/ct.rs:370-377) appends the
creator without deduplication. -/
def dupScenarioBooking : Booking :=
  ⟨43, 1,
   get_permitted_transponders dupGroupMembers (some 100)
     (groups_from_description "ACCESS:7" "ACCESS:"),
   utcInstant 2025 11 24 13 0 0, utcInstant 2025 11 24 14 0 0⟩

/-- C1 counterexample: in the spec's scenario (booking 42, zone "Z1", window
13:00-14:00 UTC, prehold 10 min, posthold 5 min, creator transponder 100,
note "ACCESS:7" with group 7 = {200}, now = 13:05 UTC, local zone = UTC), the
encoder gives transponders 200 and 100 a record covering 13:00-14:00, not the
claimed prehold/posthold-extended 12:50-14:05: the holds only gate whether a
booking is encoded at all, the formatted interval is the raw booking
window. -/
theorem scenario_record_is_not_hold_extended :
    convert_to_staging_entries (scenarioConfigAt 0) scenarioNow scenarioExtIds
        [scenarioBooking]
      = [⟨"E200", "\x7b\"Z1\",0,2025-11-24T13:00:00,2025-11-24T14:00:00\x7d"⟩,
         ⟨"E100", "\x7b\"Z1\",0,2025-11-24T13:00:00,2025-11-24T14:00:00\x7d"⟩] ∧
    ("\x7b\"Z1\",0,2025-11-24T13:00:00,2025-11-24T14:00:00\x7d" : String)
      ≠ "\x7b\"Z1\",0,2025-11-24T12:50:00,2025-11-24T14:05:00\x7d" := by
  exact ⟨by decide, by decide⟩

/-- C1 (amended): in the spec's scenario, for every local timezone offset,
transponders 100 and 200 each receive exactly one grant record for zone Z1 in
the literal format, covering the booking's own 13:00-14:00 UTC window
rendered in local time (the pre/posthold margins gate inclusion but are not
part of the encoded interval); with transponder 200 unresolvable in the
directory, only transponder 100 receives a staging entry and 200 yields
none. -/
theorem scenario_grants_booking_window (o : Int) :
    convert_to_staging_entries (scenarioConfigAt o) scenarioNow scenarioExtIds
        [scenarioBooking]
      = [⟨"E200", scenarioRecordAt o⟩, ⟨"E100", scenarioRecordAt o⟩] ∧
    convert_to_staging_entries (scenarioConfigAt o) scenarioNow scenarioExtIdsNo200
        [scenarioBooking]
      = [⟨"E100", scenarioRecordAt o⟩] := by
  exact ⟨rfl, rfl⟩

/-- C10: the resident task `keep_staging_table_up_to_date` in
src/write_staging.rs is `todo!()`: whatever configuration and channels it is
handed, polling it panics with Rust's canonical "not yet implemented" message
and no staging work is performed, even though `main` spawns it among the
long-lived tasks. -/
theorem write_staging_task_panics :
    (∀ c w t : Unit,
      keep_staging_table_up_to_date c w t = .panicked "not yet implemented") ∧
    SpawnedTask.writeStagingTask ∈ mainSpawnedTasks := by
  exact ⟨fun _ _ _ => rfl, by decide⟩

/- # Helper lemmas: lengths of byte encodings -/

theorem length_leBytes (width n : Nat) : (leBytes width n).length = width := by
  simp [leBytes]

theorem length_beBytes (width n : Nat) : (beBytes width n).length = width := by
  simp [beBytes]

theorem length_saltoSaltBytes (nowSecs nowMillis : Nat) (randomTail : List Nat)
    (h : randomTail.length = 20) :
    (saltoSaltBytes nowSecs nowMillis randomTail).length = 32 := by
  simp [saltoSaltBytes, length_leBytes, h]

theorem length_hexEncode (bytes : List Nat) :
    (hexEncode bytes).length = 2 * bytes.length := by
  show (bytes.flatMap fun b => [hexDigit (b / 16), hexDigit (b % 16)]).length
    = 2 * bytes.length
  induction bytes with
  | nil => rfl
  | cons b rest ih => simp [List.flatMap_cons, ih]; omega

theorem length_sha256 (msg : List Nat) : (sha256 msg).length = 32 := by
  simp [sha256, wordsToBytesBE, List.flatMap_cons, length_beBytes]

set_option maxRecDepth 8000 in
/-- C3 counterexample: at seconds = 1, milliseconds = 2, an all-zero random
tail and password "a", the transmitted Salto password hash differs from
hex(salt) ++ hex(SHA-256(raw salt bytes ‖ password bytes)): the code hashes
the 64 ASCII characters of the hex-encoded salt, not the 32 raw salt
bytes. -/
theorem password_hash_raw_salt_preimage_counterexample :
    salto_password_hash 1 2 (List.replicate 20 0) "a"
      ≠ specPasswordHashRawSaltPreimage 1 2 (List.replicate 20 0) "a" := by
  decide

/-- C3 (amended): the salt layout is as claimed (32 bytes: seconds since the
epoch little-endian on bytes 0-7, sub-second milliseconds little-endian on
bytes 8-11, the 20 random bytes after), and the transmitted password hash is
the 128-character string hex(salt) ++ hex(SHA-256(m)) — but the SHA-256
preimage `m` is the 64 ASCII bytes of the hex-encoded salt followed by the
password bytes, not the raw salt bytes. -/
theorem salto_password_hash_hex_salt_preimage (nowSecs nowMillis : Nat)
    (randomTail : List Nat) (password : String)
    (h : randomTail.length = 20) :
    (saltoSaltBytes nowSecs nowMillis randomTail).length = 32 ∧
    (saltoSaltBytes nowSecs nowMillis randomTail).take 8 = leBytes 8 (nowSecs % 2 ^ 64) ∧
    ((saltoSaltBytes nowSecs nowMillis randomTail).drop 8).take 4
      = leBytes 4 (nowMillis % 2 ^ 32) ∧
    (saltoSaltBytes nowSecs nowMillis randomTail).drop 12 = randomTail ∧
    salto_password_hash nowSecs nowMillis randomTail password
      = hexEncode (saltoSaltBytes nowSecs nowMillis randomTail) ++
        hexEncode (sha256
          (utf8Bytes (hexEncode (saltoSaltBytes nowSecs nowMillis randomTail)) ++
            utf8Bytes password)) ∧
    (salto_password_hash nowSecs nowMillis randomTail password).length = 128 := by
  refine ⟨length_saltoSaltBytes _ _ _ h, ?_, ?_, ?_, rfl, ?_⟩
  · show (leBytes 8 (nowSecs % 2 ^ 64) ++
      (leBytes 4 (nowMillis % 2 ^ 32) ++ randomTail)).take 8 = _
    rw [List.take_left' (length_leBytes 8 _)]
  · show ((leBytes 8 (nowSecs % 2 ^ 64) ++
      (leBytes 4 (nowMillis % 2 ^ 32) ++ randomTail)).drop 8).take 4 = _
    rw [List.drop_left' (length_leBytes 8 _), List.take_left' (length_leBytes 4 _)]
  · show (leBytes 8 (nowSecs % 2 ^ 64) ++
      (leBytes 4 (nowMillis % 2 ^ 32) ++ randomTail)).drop 12 = _
    have h12 : (12 : Nat) = 8 + 4 := rfl
    rw [h12, ← List.drop_drop, List.drop_left' (length_leBytes 8 _),
      List.drop_left' (length_leBytes 4 _)]
  · show (salto_salt nowSecs nowMillis randomTail ++
      hexEncode (sha256 (utf8Bytes (salto_salt nowSecs nowMillis randomTail) ++
        utf8Bytes password))).length = 128
    rw [String.length_append]
    show (hexEncode (saltoSaltBytes nowSecs nowMillis randomTail)).length + _ = 128
    rw [length_hexEncode, length_hexEncode, length_sha256,
      length_saltoSaltBytes _ _ _ h]

/-- C3 witness: the amended statement exercised at seconds = 1,
milliseconds = 2, a 20-byte zero random tail and password "a". -/
theorem salto_password_hash_hex_salt_preimage_witness :
    (List.replicate 20 (0 : Nat)).length = 20 ∧
    ((saltoSaltBytes 1 2 (List.replicate 20 0)).length = 32 ∧
    (saltoSaltBytes 1 2 (List.replicate 20 0)).take 8 = leBytes 8 (1 % 2 ^ 64) ∧
    ((saltoSaltBytes 1 2 (List.replicate 20 0)).drop 8).take 4 = leBytes 4 (2 % 2 ^ 32) ∧
    (saltoSaltBytes 1 2 (List.replicate 20 0)).drop 12 = List.replicate 20 0 ∧
    salto_password_hash 1 2 (List.replicate 20 0) "a"
      = hexEncode (saltoSaltBytes 1 2 (List.replicate 20 0)) ++
        hexEncode (sha256
          (utf8Bytes (hexEncode (saltoSaltBytes 1 2 (List.replicate 20 0))) ++
            utf8Bytes "a")) ∧
    (salto_password_hash 1 2 (List.replicate 20 0) "a").length = 128) :=
  ⟨by decide, salto_password_hash_hex_salt_preimage 1 2 (List.replicate 20 0) "a" (by decide)⟩

/- # Helper lemmas: the staging reconciliation -/

theorem foldl_remove_eq_map (ids : List String) (t : StagingTable) :
    ids.foldl remove_entry_by_extid t
      = t.map (fun r => if r.extId ∈ ids then { r with extZoneIdList := "" } else r) := by
  induction ids generalizing t with
  | nil => simp
  | cons i ids ih =>
    show ids.foldl remove_entry_by_extid (remove_entry_by_extid t i) = _
    rw [ih, remove_entry_by_extid, List.map_map]
    refine List.map_congr_left (fun r _ => ?_)
    by_cases hi : r.extId = i
    · by_cases hm : r.extId ∈ ids <;>
        simp [Function.comp, hi, hm, List.mem_cons]
    · by_cases hm : r.extId ∈ ids <;>
        simp [Function.comp, hi, hm, List.mem_cons]

theorem mem_upsert_of_ne (t : StagingTable) (e : StagingEntry) (r : StagingRow)
    (hne : e.extUserId ≠ r.extId) (hr : r ∈ t) : r ∈ upsert_staging_entry t e := by
  unfold upsert_staging_entry
  by_cases hk : hasExtId t e.extUserId
  · rw [if_pos hk]
    have heq :
        (if r.extId = e.extUserId then
          (⟨r.extId, e.extZoneIdList, 1, none, none, none⟩ : StagingRow)
        else r) = r := if_neg (fun h => hne h.symm)
    exact List.mem_map.mpr ⟨r, hr, heq⟩
  · rw [if_neg hk]
    exact List.mem_append_left _ hr

theorem mem_foldl_upsert_of_ne (es : List StagingEntry) (t : StagingTable)
    (r : StagingRow) (hne : ∀ e ∈ es, e.extUserId ≠ r.extId) (hr : r ∈ t) :
    r ∈ es.foldl upsert_staging_entry t := by
  induction es generalizing t with
  | nil => exact hr
  | cons e es ih =>
    exact ih _ (fun e' he' => hne e' (List.mem_cons_of_mem _ he'))
      (mem_upsert_of_ne t e r (hne e (List.mem_cons_self _ _)) hr)

/-- C2 counterexample: a staging row with key "A", zone list "x", processing
flag 0 and a recorded error, reconciled against an empty desired set, keeps
its zone list blanked but its bookkeeping columns untouched: the reset row
(processing flag 1, cleared error fields) the claim promises is not in the
table. -/
theorem stale_row_fields_not_reset_counterexample :
    overwrite_staging_table_with [⟨"A", "x", 0, some "z", some 5, some "boom"⟩] []
      = [⟨"A", "", 0, some "z", some 5, some "boom"⟩] ∧
    (⟨"A", "", 1, none, none, none⟩ : StagingRow) ∉
      overwrite_staging_table_with [⟨"A", "x", 0, some "z", some 5, some "boom"⟩] [] := by
  exact ⟨by decide, by decide⟩

/-- C2 (amended): every row whose external id is absent from the cycle's
desired entry set survives the cycle with its zone-list column blanked to the
empty string and every other column unchanged — the row is kept, not
deleted, and its vendor processing/error bookkeeping fields are left
untouched (they are only reset when the id is upserted as part of the
desired set). -/
theorem stale_rows_blanked_and_kept (t : StagingTable) (entries : List StagingEntry)
    (r : StagingRow) (hr : r ∈ t)
    (hstale : ∀ e ∈ entries, e.extUserId ≠ r.extId) :
    { r with extZoneIdList := "" } ∈ overwrite_staging_table_with t entries := by
  show { r with extZoneIdList := "" } ∈ entries.foldl upsert_staging_entry
    (((t.map (fun r0 => r0.extId)).filter
      (fun existingExtId =>
        entries.all (fun newEntry => newEntry.extUserId ≠ existingExtId))).foldl
      remove_entry_by_extid t)
  rw [foldl_remove_eq_map]
  have hmem : r.extId ∈ (t.map (fun r0 => r0.extId)).filter
      (fun existingExtId =>
        entries.all (fun newEntry => newEntry.extUserId ≠ existingExtId)) :=
    List.mem_filter.mpr ⟨List.mem_map_of_mem _ hr,
      List.all_eq_true.mpr (fun e he => decide_eq_true (hstale e he))⟩
  refine mem_foldl_upsert_of_ne _ _ _ (fun e he h => hstale e he h) ?_
  exact List.mem_map.mpr ⟨r, hr, if_pos hmem⟩

/-- C2 witness: the amended statement exercised on a one-row table and a
desired set naming a different external id. -/
theorem stale_rows_blanked_and_kept_witness :
    ((⟨"A", "x", 0, some "z", some 5, some "boom"⟩ : StagingRow) ∈
      ([⟨"A", "x", 0, some "z", some 5, some "boom"⟩] : StagingTable)) ∧
    (∀ e ∈ ([⟨"B", "y"⟩] : List StagingEntry), e.extUserId ≠ "A") ∧
    ({ (⟨"A", "x", 0, some "z", some 5, some "boom"⟩ : StagingRow) with
        extZoneIdList := "" } ∈
      overwrite_staging_table_with [⟨"A", "x", 0, some "z", some 5, some "boom"⟩]
        [⟨"B", "y"⟩]) :=
  ⟨by decide, by decide,
    stale_rows_blanked_and_kept [⟨"A", "x", 0, some "z", some 5, some "boom"⟩]
      [⟨"B", "y"⟩] ⟨"A", "x", 0, some "z", some 5, some "boom"⟩ (by decide) (by decide)⟩


/- # Helper lemmas: idempotence infrastructure for the reconciler -/

theorem extId_updEntry (e : StagingEntry) (r : StagingRow) :
    (updEntry e r).extId = r.extId := by
  unfold updEntry
  split <;> rfl

theorem upsert_eq_map (t : StagingTable) (e : StagingEntry)
    (hk : hasExtId t e.extUserId) :
    upsert_staging_entry t e = t.map (updEntry e) := by
  rw [upsert_staging_entry, if_pos hk]
  rfl

theorem hasExtId_map_updEntry (t : StagingTable) (e : StagingEntry) (k : String) :
    hasExtId (t.map (updEntry e)) k = hasExtId t k := by
  unfold hasExtId
  induction t with
  | nil => rfl
  | cons r t ih => simp [List.any_cons, extId_updEntry, ih]

theorem hasExtId_upsert (t : StagingTable) (e : StagingEntry) (k : String) :
    hasExtId (upsert_staging_entry t e) k = true ↔
      hasExtId t k = true ∨ k = e.extUserId := by
  by_cases hk : hasExtId t e.extUserId
  · rw [upsert_eq_map t e hk, hasExtId_map_updEntry]
    constructor
    · exact Or.inl
    · rintro (h | h)
      · exact h
      · exact h ▸ hk
  · rw [upsert_staging_entry, if_neg hk]
    unfold hasExtId
    rw [List.any_append]
    simp only [List.any_cons, List.any_nil, freshStagingRow, Bool.or_false,
      Bool.or_eq_true, decide_eq_true_eq]
    constructor
    · rintro (h | h)
      · exact Or.inl h
      · exact Or.inr h.symm
    · rintro (h | h)
      · exact Or.inl h
      · exact Or.inr h.symm

theorem hasExtId_foldl_upsert (es : List StagingEntry) (t : StagingTable) (k : String) :
    hasExtId (es.foldl upsert_staging_entry t) k = true ↔
      hasExtId t k = true ∨ k ∈ idsOf es := by
  induction es generalizing t with
  | nil => simp [idsOf]
  | cons e es ih =>
    show hasExtId (es.foldl upsert_staging_entry (upsert_staging_entry t e)) k = true ↔ _
    rw [ih, hasExtId_upsert]
    simp [idsOf, or_assoc]

theorem foldl_upsert_eq_map (es : List StagingEntry) (t : StagingTable)
    (h : ∀ e ∈ es, hasExtId t e.extUserId) :
    es.foldl upsert_staging_entry t = t.map (updAll es) := by
  induction es generalizing t with
  | nil =>
    show t = t.map (fun r => r)
    rw [List.map_id']
  | cons e es ih =>
    show es.foldl upsert_staging_entry (upsert_staging_entry t e) = _
    rw [upsert_eq_map t e (h e (List.mem_cons_self _ _)),
      ih (t.map (updEntry e)) (fun e' he' => by
        rw [hasExtId_map_updEntry]
        exact h e' (List.mem_cons_of_mem _ he')),
      List.map_map]
    rfl

theorem lastZoneFrom_or (es : List StagingEntry) (acc : Option String) (k : String) :
    lastZoneFrom acc k es = (lastZoneFrom none k es).or acc := by
  induction es generalizing acc with
  | nil => rfl
  | cons e es ih =>
    show lastZoneFrom (if e.extUserId = k then some e.extZoneIdList else acc) k es
      = (lastZoneFrom (if e.extUserId = k then some e.extZoneIdList else none) k es).or acc
    by_cases he : e.extUserId = k
    · rw [if_pos he, if_pos he, ih (some e.extZoneIdList)]
      cases lastZoneFrom none k es <;> rfl
    · rw [if_neg he, if_neg he, ih acc]

theorem lastZoneFrom_of_not_mem (es : List StagingEntry) (acc : Option String)
    (k : String) (h : ∀ e ∈ es, e.extUserId ≠ k) :
    lastZoneFrom acc k es = acc := by
  induction es generalizing acc with
  | nil => rfl
  | cons e es ih =>
    show lastZoneFrom (if e.extUserId = k then some e.extZoneIdList else acc) k es = acc
    rw [if_neg (h e (List.mem_cons_self _ _)),
      ih acc (fun e' he' => h e' (List.mem_cons_of_mem _ he'))]

theorem updAll_eq_lastZone (es : List StagingEntry) (r : StagingRow) :
    updAll es r = (lastZoneFrom none r.extId es).elim r (resetWith r) := by
  induction es generalizing r with
  | nil => rfl
  | cons e es ih =>
    show updAll es (updEntry e r) = (lastZoneFrom
      (if e.extUserId = r.extId then some e.extZoneIdList else none) r.extId es).elim
        r (resetWith r)
    by_cases he : r.extId = e.extUserId
    · rw [updEntry, if_pos he, if_pos he.symm, ih (resetWith r e.extZoneIdList)]
      have hext : (resetWith r e.extZoneIdList).extId = r.extId := rfl
      rw [hext, lastZoneFrom_or es (some e.extZoneIdList) r.extId]
      cases lastZoneFrom none r.extId es <;> rfl
    · rw [updEntry, if_neg he, if_neg (fun hh => he hh.symm), ih r]

theorem row_shape_foldl_upsert (es : List StagingEntry) (t : StagingTable)
    (r : StagingRow) (hr : r ∈ es.foldl upsert_staging_entry t) :
    (r ∈ t ∧ lastZoneFrom none r.extId es = none) ∨
      (∃ z, lastZoneFrom none r.extId es = some z ∧ r = resetWith r z) := by
  induction es generalizing t with
  | nil => exact Or.inl ⟨hr, rfl⟩
  | cons e es ih =>
    have hr' : r ∈ es.foldl upsert_staging_entry (upsert_staging_entry t e) := hr
    have hstep : lastZoneFrom none r.extId (e :: es)
        = (lastZoneFrom none r.extId es).or
          (if e.extUserId = r.extId then some e.extZoneIdList else none) := by
      show lastZoneFrom (if e.extUserId = r.extId then some e.extZoneIdList else none)
        r.extId es = _
      exact lastZoneFrom_or _ _ _
    rcases ih (upsert_staging_entry t e) hr' with ⟨hmem, hnone⟩ | ⟨z, hz, hform⟩
    · rw [hnone] at hstep
      by_cases hk : hasExtId t e.extUserId
      · rw [upsert_eq_map t e hk] at hmem
        rcases List.mem_map.mp hmem with ⟨r0, hr0, hf⟩
        by_cases h0 : r0.extId = e.extUserId
        · have hre : r = resetWith r0 e.extZoneIdList := by
            rw [← hf, updEntry, if_pos h0]
          have hride : r.extId = e.extUserId := by
            rw [hre]
            exact h0
          refine Or.inr ⟨e.extZoneIdList, ?_, ?_⟩
          · rw [hstep, if_pos hride.symm]
            rfl
          · rw [hre]
            rfl
        · rw [updEntry, if_neg h0] at hf
          subst hf
          refine Or.inl ⟨hr0, ?_⟩
          rw [hstep, if_neg (fun hh => h0 hh.symm)]
          rfl
      · rw [upsert_staging_entry, if_neg hk] at hmem
        rcases List.mem_append.mp hmem with hmem | hmem
        · have hne : e.extUserId ≠ r.extId := by
            intro hh
            exact hk (List.any_eq_true.mpr ⟨r, hmem, decide_eq_true hh.symm⟩)
          refine Or.inl ⟨hmem, ?_⟩
          rw [hstep, if_neg hne]
          rfl
        · have hfr : r = freshStagingRow e := List.mem_singleton.mp hmem
          refine Or.inr ⟨e.extZoneIdList, ?_, ?_⟩
          · rw [hstep, if_pos (by rw [hfr]; rfl)]
            rfl
          · rw [hfr]
            rfl
    · refine Or.inr ⟨z, ?_, hform⟩
      rw [hstep, hz]
      rfl

/-- C9: running the Staging Reconciler twice in succession with the same
desired entry set leaves the staging table (all columns of all rows) exactly
as running it once: a second `overwrite_staging_table_with` blanks
already-blank stale rows and conflict-upserts every desired id onto the
reset state it already has. -/
theorem overwrite_staging_idempotent (t : StagingTable) (entries : List StagingEntry) :
    overwrite_staging_table_with (overwrite_staging_table_with t entries) entries
      = overwrite_staging_table_with t entries := by
  have rowsA : ∀ r ∈ overwrite_staging_table_with t entries,
      (∀ e ∈ entries, e.extUserId ≠ r.extId) → r.extZoneIdList = "" := by
    intro r hr hne
    have hrA : r ∈ entries.foldl upsert_staging_entry
        (((t.map (fun r0 => r0.extId)).filter
          (fun existingExtId =>
            entries.all (fun newEntry => newEntry.extUserId ≠ existingExtId))).foldl
          remove_entry_by_extid t) := hr
    rcases row_shape_foldl_upsert entries _ r hrA with ⟨hmem, _⟩ | ⟨z, hz, _⟩
    · rw [foldl_remove_eq_map] at hmem
      rcases List.mem_map.mp hmem with ⟨r0, hr0, hf⟩
      by_cases hm : r0.extId ∈ (t.map (fun r1 => r1.extId)).filter
          (fun existingExtId =>
            entries.all (fun newEntry => newEntry.extUserId ≠ existingExtId))
      · rw [if_pos hm] at hf
        rw [← hf]
      · exfalso
        rw [if_neg hm] at hf
        subst hf
        exact hm (List.mem_filter.mpr ⟨List.mem_map_of_mem _ hr0,
          List.all_eq_true.mpr (fun e he => decide_eq_true (hne e he))⟩)
    · exact absurd (lastZoneFrom_of_not_mem entries none r.extId hne ▸ hz)
        (fun hh => Option.noConfusion hh)
  have hblank2 : (((overwrite_staging_table_with t entries).map (fun r0 => r0.extId)).filter
      (fun existingExtId =>
        entries.all (fun newEntry => newEntry.extUserId ≠ existingExtId))).foldl
      remove_entry_by_extid (overwrite_staging_table_with t entries)
      = overwrite_staging_table_with t entries := by
    rw [foldl_remove_eq_map]
    refine (List.map_congr_left ?_).trans (List.map_id _)
    intro r hr
    by_cases hm : r.extId ∈ ((overwrite_staging_table_with t entries).map
        (fun r0 => r0.extId)).filter
        (fun existingExtId =>
          entries.all (fun newEntry => newEntry.extUserId ≠ existingExtId))
    · have hne : ∀ e ∈ entries, e.extUserId ≠ r.extId := fun e he =>
        of_decide_eq_true (List.all_eq_true.mp (List.mem_filter.mp hm).2 e he)
      have hz := rowsA r hr hne
      rw [if_pos hm, ← hz]
      rfl
    · rw [if_neg hm]
      rfl
  have hkeys : ∀ e ∈ entries,
      hasExtId (overwrite_staging_table_with t entries) e.extUserId := by
    intro e he
    show hasExtId (entries.foldl upsert_staging_entry
      (((t.map (fun r0 => r0.extId)).filter
        (fun existingExtId =>
          entries.all (fun newEntry => newEntry.extUserId ≠ existingExtId))).foldl
        remove_entry_by_extid t)) e.extUserId = true
    exact (hasExtId_foldl_upsert entries _ e.extUserId).mpr
      (Or.inr (List.mem_map_of_mem _ he))
  have hupsert2 : entries.foldl upsert_staging_entry
      (overwrite_staging_table_with t entries)
      = overwrite_staging_table_with t entries := by
    rw [foldl_upsert_eq_map entries _ hkeys]
    refine (List.map_congr_left ?_).trans (List.map_id _)
    intro r hr
    have hrA : r ∈ entries.foldl upsert_staging_entry
        (((t.map (fun r0 => r0.extId)).filter
          (fun existingExtId =>
            entries.all (fun newEntry => newEntry.extUserId ≠ existingExtId))).foldl
          remove_entry_by_extid t) := hr
    rcases row_shape_foldl_upsert entries _ r hrA with ⟨_, hnone⟩ | ⟨z, hz, hform⟩
    · rw [updAll_eq_lastZone, hnone]
      rfl
    · rw [updAll_eq_lastZone, hz]
      exact hform.symm
  show entries.foldl upsert_staging_entry
    ((((overwrite_staging_table_with t entries).map (fun r0 => r0.extId)).filter
      (fun existingExtId =>
        entries.all (fun newEntry => newEntry.extUserId ≠ existingExtId))).foldl
      remove_entry_by_extid (overwrite_staging_table_with t entries))
    = overwrite_staging_table_with t entries
  rw [hblank2, hupsert2]

/- # Helper lemmas: the per-transponder zone-list accumulation -/

theorem zlLookup_append (m m' : List (Int × String)) (k : Int) :
    zlLookup (m ++ m') k = (zlLookup m k).or (zlLookup m' k) := by
  induction m with
  | nil => rfl
  | cons e m ih =>
    show (if e.1 = k then some e.2 else zlLookup (m ++ m') k)
      = (if e.1 = k then some e.2 else zlLookup m k).or (zlLookup m' k)
    by_cases he : e.1 = k
    · rw [if_pos he, if_pos he]
      rfl
    · rw [if_neg he, if_neg he, ih]

theorem zlLookup_map_extend_ne (m : List (Int × String)) (tr tr' : Int) (rec : String)
    (h : tr' ≠ tr) :
    zlLookup (m.map (fun e => if e.1 = tr then (e.1, e.2 ++ "," ++ rec) else e)) tr'
      = zlLookup m tr' := by
  induction m with
  | nil => rfl
  | cons e m ih =>
    show zlLookup ((if e.1 = tr then (e.1, e.2 ++ "," ++ rec) else e)
      :: m.map (fun e0 => if e0.1 = tr then (e0.1, e0.2 ++ "," ++ rec) else e0)) tr' = _
    by_cases he : e.1 = tr
    · rw [if_pos he]
      show (if e.1 = tr' then some (e.2 ++ "," ++ rec)
        else zlLookup (m.map (fun e0 => if e0.1 = tr then (e0.1, e0.2 ++ "," ++ rec) else e0)) tr')
        = (if e.1 = tr' then some e.2 else zlLookup m tr')
      rw [if_neg (fun hh => h (hh.symm.trans he)),
        if_neg (fun hh => h (hh.symm.trans he)), ih]
    · rw [if_neg he]
      show (if e.1 = tr' then some e.2
        else zlLookup (m.map (fun e0 => if e0.1 = tr then (e0.1, e0.2 ++ "," ++ rec) else e0)) tr')
        = (if e.1 = tr' then some e.2 else zlLookup m tr')
      by_cases he' : e.1 = tr'
      · rw [if_pos he', if_pos he']
      · rw [if_neg he', if_neg he', ih]

theorem zlLookup_addZone_self (m : List (Int × String)) (tr : Int) (rec : String)
    (h : zlLookup m tr = none) :
    zlLookup (addZoneRecord m tr rec) tr = some rec := by
  rw [addZoneRecord,
    if_neg (show ¬((zlLookup m tr).isSome = true) by rw [h]; exact Bool.false_ne_true),
    zlLookup_append, h]
  show zlLookup [(tr, rec)] tr = some rec
  rw [zlLookup, if_pos rfl]

theorem zlLookup_addZone_ne (m : List (Int × String)) (tr tr' : Int) (rec : String)
    (h : tr' ≠ tr) :
    zlLookup (addZoneRecord m tr rec) tr' = zlLookup m tr' := by
  rw [addZoneRecord]
  by_cases hs : (zlLookup m tr).isSome
  · rw [if_pos hs]
    exact zlLookup_map_extend_ne m tr tr' rec h
  · rw [if_neg hs, zlLookup_append]
    show (zlLookup m tr').or (if tr = tr' then some rec else none) = zlLookup m tr'
    rw [if_neg (fun hh => h hh.symm)]
    cases zlLookup m tr' <;> rfl

theorem zlLookup_map_extend_self (m : List (Int × String)) (tr : Int) (rec z : String)
    (h : zlLookup m tr = some z) :
    zlLookup (m.map (fun e => if e.1 = tr then (e.1, e.2 ++ "," ++ rec) else e)) tr
      = some (z ++ "," ++ rec) := by
  induction m with
  | nil => cases h
  | cons e m ih =>
    show zlLookup ((if e.1 = tr then (e.1, e.2 ++ "," ++ rec) else e)
      :: m.map (fun e0 => if e0.1 = tr then (e0.1, e0.2 ++ "," ++ rec) else e0)) tr = _
    have h' : (if e.1 = tr then some e.2 else zlLookup m tr) = some z := h
    by_cases he : e.1 = tr
    · rw [if_pos he]
      show (if e.1 = tr then some (e.2 ++ "," ++ rec)
        else zlLookup (m.map (fun e0 => if e0.1 = tr then (e0.1, e0.2 ++ "," ++ rec) else e0)) tr)
        = some (z ++ "," ++ rec)
      rw [if_pos he] at h'
      have hz : e.2 = z := Option.some.inj h'
      rw [if_pos he, hz]
    · rw [if_neg he]
      show (if e.1 = tr then some e.2
        else zlLookup (m.map (fun e0 => if e0.1 = tr then (e0.1, e0.2 ++ "," ++ rec) else e0)) tr)
        = some (z ++ "," ++ rec)
      rw [if_neg he] at h'
      rw [if_neg he]
      exact ih h'

theorem zlLookup_addZone_extend (m : List (Int × String)) (tr : Int) (rec z : String)
    (h : zlLookup m tr = some z) :
    zlLookup (addZoneRecord m tr rec) tr = some (z ++ "," ++ rec) := by
  rw [addZoneRecord,
    if_pos (show (zlLookup m tr).isSome = true by rw [h]; rfl)]
  exact zlLookup_map_extend_self m tr rec z h

theorem zlLookup_foldl_addZone_some (ts : List Int) (acc : List (Int × String))
    (rec : String) (tr : Int) (z : String) (h : zlLookup acc tr = some z) :
    zlLookup (ts.foldl (fun a tr0 => addZoneRecord a tr0 rec) acc) tr
      = some (appendRecTimes rec z (ts.count tr)) := by
  induction ts generalizing acc z with
  | nil => exact h
  | cons t ts ih =>
    show zlLookup (ts.foldl (fun a tr0 => addZoneRecord a tr0 rec)
      (addZoneRecord acc t rec)) tr = _
    by_cases ht : t = tr
    · subst ht
      rw [List.count_cons_self]
      exact ih _ _ (zlLookup_addZone_extend acc t rec z h)
    · have hkeep : zlLookup (addZoneRecord acc t rec) tr = some z := by
        rw [zlLookup_addZone_ne acc t tr rec (fun hh => ht hh.symm)]
        exact h
      rw [List.count_cons_of_ne (fun hh => ht hh.symm)]
      exact ih _ _ hkeep

theorem zlLookup_foldl_addZone_count (ts : List Int) (acc : List (Int × String))
    (rec : String) (tr : Int) (htr : tr ∈ ts) (hnone : zlLookup acc tr = none) :
    zlLookup (ts.foldl (fun a tr0 => addZoneRecord a tr0 rec) acc) tr
      = some (appendRecTimes rec rec (ts.count tr - 1)) := by
  induction ts generalizing acc with
  | nil => cases htr
  | cons t ts ih =>
    show zlLookup (ts.foldl (fun a tr0 => addZoneRecord a tr0 rec)
      (addZoneRecord acc t rec)) tr = _
    by_cases ht : t = tr
    · subst ht
      rw [List.count_cons_self, Nat.add_sub_cancel]
      exact zlLookup_foldl_addZone_some ts _ rec t rec
        (zlLookup_addZone_self acc t rec hnone)
    · have hmem : tr ∈ ts := by
        rcases List.mem_cons.mp htr with hh | hh
        · exact absurd hh.symm ht
        · exact hh
      have hnone' : zlLookup (addZoneRecord acc t rec) tr = none := by
        rw [zlLookup_addZone_ne acc t tr rec (fun hh => ht hh.symm)]
        exact hnone
      rw [List.count_cons_of_ne (fun hh => ht hh.symm)]
      exact ih _ hmem hnone'

/-- C5 counterexample: booking 43 sits inside its extended window at 13:05
UTC and its resource maps to zone "Z1", but its creator (transponder 100) is
also a member of the referenced group 7, so the permitted list is
[100, 100] and transponder 100's zone list holds two concatenated copies of
the grant record — not "exactly one grant record for each of its permitted
transponders" as claimed. -/
theorem duplicated_transponder_grant_counterexample :
    dupScenarioBooking.permittedTransponders = [100, 100] ∧
    room_ext_id (scenarioConfigAt 0).rooms dupScenarioBooking.resourceId = some "Z1" ∧
    dupScenarioBooking.startTime - (scenarioConfigAt 0).preholdTime
      - (scenarioConfigAt 0).syncFrequency ≤ scenarioNow ∧
    scenarioNow ≤ dupScenarioBooking.endTime + (scenarioConfigAt 0).postholdTime ∧
    zlLookup (buildZoneLists (scenarioConfigAt 0) scenarioNow [dupScenarioBooking]) 100
      = some ("\x7b\"Z1\",0,2025-11-24T13:00:00,2025-11-24T14:00:00\x7d,\x7b\"Z1\",0,2025-11-24T13:00:00,2025-11-24T14:00:00\x7d") ∧
    ("\x7b\"Z1\",0,2025-11-24T13:00:00,2025-11-24T14:00:00\x7d,\x7b\"Z1\",0,2025-11-24T13:00:00,2025-11-24T14:00:00\x7d" : String)
      ≠ "\x7b\"Z1\",0,2025-11-24T13:00:00,2025-11-24T14:00:00\x7d" := by
  exact ⟨by decide, by decide, by decide, by decide, by decide, by decide⟩

/-- C5 (amended): per-booking windowing of the encoder.  A booking whose
posthold tail has passed (`now > end + posthold`) contributes nothing; a
booking whose prehold window is still more than one sync interval away
(`now < start − prehold − sync_frequency`) contributes nothing; a booking
inside its extended window whose resource has a configured zone gives each
permitted transponder one copy of the formatted grant record per occurrence
of that transponder in the permitted list, comma-concatenated — exactly one
record when the transponder is listed once, two copies when it is listed
twice (e.g. a creator who is also a member of a referenced group, appended
without deduplication). -/
theorem booking_windowing_and_grants (cfg : EncoderConfig) (now : Int) (b : Booking) :
    (now > b.endTime + cfg.postholdTime → buildZoneLists cfg now [b] = []) ∧
    (now < b.startTime - cfg.preholdTime - cfg.syncFrequency →
      buildZoneLists cfg now [b] = []) ∧
    (∀ zone, b.startTime - cfg.preholdTime - cfg.syncFrequency ≤ now →
      now ≤ b.endTime + cfg.postholdTime →
      room_ext_id cfg.rooms b.resourceId = some zone →
      ∀ tr ∈ b.permittedTransponders,
        zlLookup (buildZoneLists cfg now [b]) tr
          = some (appendRecTimes
              (salto_single_permitted_zone_format cfg.localOffset zone
                cfg.timetableId b.startTime b.endTime)
              (salto_single_permitted_zone_format cfg.localOffset zone
                cfg.timetableId b.startTime b.endTime)
              (b.permittedTransponders.count tr - 1))) := by
  refine ⟨?_, ?_, ?_⟩
  · intro h
    show stepBooking cfg now [] b = []
    rw [stepBooking, if_pos (Or.inl h)]
  · intro h
    show stepBooking cfg now [] b = []
    rw [stepBooking, if_pos (Or.inr h)]
  · intro zone h1 h2 hz tr htr
    show zlLookup (stepBooking cfg now [] b) tr = _
    rw [stepBooking, if_neg (fun hor => hor.elim
      (fun hgt => absurd hgt (not_lt.mpr h2))
      (fun hlt => absurd hlt (not_lt.mpr h1))), hz]
    exact zlLookup_foldl_addZone_count b.permittedTransponders [] _ tr htr rfl

/-- C5 witness: the windowing statement exercised on the scenario booking
(transponder 100 listed once: one record) and on booking 43 (transponder 100
listed twice: two records). -/
theorem booking_windowing_and_grants_witness :
    ((100 : Int) ∈ scenarioBooking.permittedTransponders) ∧
    (scenarioBooking.startTime - (scenarioConfigAt 0).preholdTime
      - (scenarioConfigAt 0).syncFrequency ≤ scenarioNow) ∧
    (scenarioNow ≤ scenarioBooking.endTime + (scenarioConfigAt 0).postholdTime) ∧
    (room_ext_id (scenarioConfigAt 0).rooms scenarioBooking.resourceId = some "Z1") ∧
    zlLookup (buildZoneLists (scenarioConfigAt 0) scenarioNow [scenarioBooking]) 100
      = some (appendRecTimes
          (salto_single_permitted_zone_format (scenarioConfigAt 0).localOffset "Z1"
            (scenarioConfigAt 0).timetableId scenarioBooking.startTime
            scenarioBooking.endTime)
          (salto_single_permitted_zone_format (scenarioConfigAt 0).localOffset "Z1"
            (scenarioConfigAt 0).timetableId scenarioBooking.startTime
            scenarioBooking.endTime)
          (scenarioBooking.permittedTransponders.count 100 - 1)) ∧
    ((100 : Int) ∈ dupScenarioBooking.permittedTransponders) ∧
    zlLookup (buildZoneLists (scenarioConfigAt 0) scenarioNow [dupScenarioBooking]) 100
      = some (appendRecTimes
          (salto_single_permitted_zone_format (scenarioConfigAt 0).localOffset "Z1"
            (scenarioConfigAt 0).timetableId dupScenarioBooking.startTime
            dupScenarioBooking.endTime)
          (salto_single_permitted_zone_format (scenarioConfigAt 0).localOffset "Z1"
            (scenarioConfigAt 0).timetableId dupScenarioBooking.startTime
            dupScenarioBooking.endTime)
          (dupScenarioBooking.permittedTransponders.count 100 - 1)) :=
  ⟨by decide, by decide, by decide, by decide,
    (booking_windowing_and_grants (scenarioConfigAt 0) scenarioNow scenarioBooking).2.2
      "Z1" (by decide) (by decide) (by decide) 100 (by decide),
    by decide,
    (booking_windowing_and_grants (scenarioConfigAt 0) scenarioNow dupScenarioBooking).2.2
      "Z1" (by decide) (by decide) (by decide) 100 (by decide)⟩

/- # C4: calendar-appointment time resolution -/

/-- C4: for a booking created from a calendar appointment, the resolved raw
(start, end) is the appointment's calculated time for the booking's own start
day — taken from the day-keyed occurrence map when present (the map takes
precedence), else from the single calculated time — never the resource's own
calculated time; resolution fails with `NoCalculatedDateTimeOnDay
(appointment, day)` exactly when the day-keyed map is present but has no
occurrence for that day, and with `NoCalculatedDateTime appointment` exactly
when neither the map nor a single calculated time exists. -/
theorem appointment_time_resolution (fetch : Int → Int → FullAppointmentData)
    (x : BookingsData) (aid cid : Int) (h : x.appointment = some (aid, cid)) :
    (∀ m tf, (fetch aid cid).calculatedDates = some m →
      alistFind m (startDayOf x.calculatedStartDate) = some tf →
      resolveRawBookingTimes fetch x = .ok (tf.startDate, tf.endDate)) ∧
    (∀ tf, (fetch aid cid).calculatedDates = none →
      (fetch aid cid).calculated = some tf →
      resolveRawBookingTimes fetch x = .ok (tf.startDate, tf.endDate)) ∧
    (resolveRawBookingTimes fetch x
        = .error (.noCalculatedDateTimeOnDay aid (startDayOf x.calculatedStartDate))
      ↔ ∃ m, (fetch aid cid).calculatedDates = some m ∧
          alistFind m (startDayOf x.calculatedStartDate) = none) ∧
    (resolveRawBookingTimes fetch x = .error (.noCalculatedDateTime aid)
      ↔ (fetch aid cid).calculatedDates = none ∧ (fetch aid cid).calculated = none) := by
  refine ⟨?_, ?_, ?_, ?_⟩
  · intro m tf hm htf
    simp only [resolveRawBookingTimes, h, get_appointment, hm, htf]
  · intro tf hm hc
    simp only [resolveRawBookingTimes, h, get_appointment, hm, hc]
  · cases hcd : (fetch aid cid).calculatedDates with
    | none =>
      cases hcal : (fetch aid cid).calculated with
      | none =>
        have hres : resolveRawBookingTimes fetch x
            = .error (.noCalculatedDateTime aid) := by
          simp only [resolveRawBookingTimes, h, get_appointment, hcd, hcal]
        rw [hres]
        constructor
        · intro heq
          cases heq
        · rintro ⟨m, hm, _⟩
          cases hm
      | some tf =>
        have hres : resolveRawBookingTimes fetch x
            = .ok (tf.startDate, tf.endDate) := by
          simp only [resolveRawBookingTimes, h, get_appointment, hcd, hcal]
        rw [hres]
        constructor
        · intro heq
          cases heq
        · rintro ⟨m, hm, _⟩
          cases hm
    | some m =>
      cases hfind : alistFind m (startDayOf x.calculatedStartDate) with
      | none =>
        have hres : resolveRawBookingTimes fetch x
            = .error (.noCalculatedDateTimeOnDay aid (startDayOf x.calculatedStartDate)) := by
          simp only [resolveRawBookingTimes, h, get_appointment, hcd, hfind]
        rw [hres]
        exact ⟨fun _ => ⟨m, rfl, hfind⟩, fun _ => rfl⟩
      | some tf =>
        have hres : resolveRawBookingTimes fetch x
            = .ok (tf.startDate, tf.endDate) := by
          simp only [resolveRawBookingTimes, h, get_appointment, hcd, hfind]
        rw [hres]
        constructor
        · intro heq
          cases heq
        · rintro ⟨m', hm', hfind'⟩
          cases hm'
          rw [hfind] at hfind'
          cases hfind'
  · cases hcd : (fetch aid cid).calculatedDates with
    | none =>
      cases hcal : (fetch aid cid).calculated with
      | none =>
        have hres : resolveRawBookingTimes fetch x
            = .error (.noCalculatedDateTime aid) := by
          simp only [resolveRawBookingTimes, h, get_appointment, hcd, hcal]
        rw [hres]
        exact ⟨fun _ => ⟨rfl, rfl⟩, fun _ => rfl⟩
      | some tf =>
        have hres : resolveRawBookingTimes fetch x
            = .ok (tf.startDate, tf.endDate) := by
          simp only [resolveRawBookingTimes, h, get_appointment, hcd, hcal]
        rw [hres]
        constructor
        · intro heq
          cases heq
        · rintro ⟨_, hc⟩
          cases hc
    | some m =>
      cases hfind : alistFind m (startDayOf x.calculatedStartDate) with
      | none =>
        have hres : resolveRawBookingTimes fetch x
            = .error (.noCalculatedDateTimeOnDay aid (startDayOf x.calculatedStartDate)) := by
          simp only [resolveRawBookingTimes, h, get_appointment, hcd, hfind]
        rw [hres]
        constructor
        · intro heq
          cases heq
        · rintro ⟨hc, _⟩
          cases hc
      | some tf =>
        have hres : resolveRawBookingTimes fetch x
            = .ok (tf.startDate, tf.endDate) := by
          simp only [resolveRawBookingTimes, h, get_appointment, hcd, hfind]
        rw [hres]
        constructor
        · intro heq
          cases heq
        · rintro ⟨hc, _⟩
          cases hc

/-- C4 witness: the resolution statement exercised on a concrete repeating
appointment — the resolved times are the occurrence's, not the resource's and
not the single calculated time. -/
theorem appointment_time_resolution_witness :
    witnessApptBooking.appointment = some (5, 6) ∧
    (witnessApptFetch 5 6).calculatedDates
      = some [("2025-11-24", ⟨"2025-11-24T09:00:00Z", "2025-11-24T11:30:00Z"⟩)] ∧
    alistFind [("2025-11-24", ⟨"2025-11-24T09:00:00Z", "2025-11-24T11:30:00Z"⟩)]
      (startDayOf witnessApptBooking.calculatedStartDate)
      = some ⟨"2025-11-24T09:00:00Z", "2025-11-24T11:30:00Z"⟩ ∧
    resolveRawBookingTimes witnessApptFetch witnessApptBooking
      = .ok ("2025-11-24T09:00:00Z", "2025-11-24T11:30:00Z") :=
  ⟨by decide, by decide, by decide,
    (appointment_time_resolution witnessApptFetch witnessApptBooking 5 6 (by decide)).1
      [("2025-11-24", ⟨"2025-11-24T09:00:00Z", "2025-11-24T11:30:00Z"⟩)]
      ⟨"2025-11-24T09:00:00Z", "2025-11-24T11:30:00Z"⟩ (by decide) (by decide)⟩

/- # C6: timestamp parsing -/

theorem dateOnly_fields (cs : List Char) (ymd : Nat × Nat × Nat)
    (h : parseDateOnly cs = .ok ymd) : readDateFields cs = .ok (ymd, []) := by
  cases hr : readDateFields cs with
  | error k =>
    rw [parseDateOnly, hr] at h
    cases h
  | ok pr =>
    rcases pr with ⟨ymd', rest⟩
    cases rest with
    | cons c rest =>
      rw [parseDateOnly, hr] at h
      cases h
    | nil =>
      rw [parseDateOnly, hr] at h
      have h' : (if validDate (ymd'.1 : Int) ymd'.2.1 ymd'.2.2 = true then
          Except.ok ymd' else Except.error ParseErrKind.outOfRange)
          = Except.ok ymd := h
      by_cases hv : validDate (ymd'.1 : Int) ymd'.2.1 ymd'.2.2 = true
      · rw [if_pos hv] at h'
        cases h'
        rfl
      · rw [if_neg hv] at h'
        cases h'

theorem rfc3339_tooShort_of_dateOnly (cs : List Char) (ymd : Nat × Nat × Nat)
    (h : readDateFields cs = .ok (ymd, [])) :
    parseRfc3339 cs = .error .tooShort := by
  rw [parseRfc3339, h]

/-- C6: a booking timestamp that parses as a date-only `%Y-%m-%d` value
resolves to 00:00:00 UTC of that calendar date as a start time and to
23:59:59 UTC of that date as an end time (the RFC 3339 parse fails `TooShort`
on such input, triggering the fallback); and whenever time resolution fails,
the error is a `ParseTime` error carrying the offending string — never a
silently coerced value and never another error kind. -/
theorem dateonly_resolution_and_parse_errors (s : String) :
    (∀ y mo d, parseDateOnly s.data = .ok (y, mo, d) →
      resolveStartTime s = .ok (utcInstant (y : Int) mo d 0 0 0) ∧
      resolveEndTime s = .ok (utcInstant (y : Int) mo d 23 59 59)) ∧
    (∀ e, resolveStartTime s = .error e → ∃ k, e = .parseTime k s) ∧
    (∀ e, resolveEndTime s = .error e → ∃ k, e = .parseTime k s) := by
  refine ⟨?_, ?_, ?_⟩
  · intro y mo d h
    have hts : parseRfc3339 s.data = .error .tooShort :=
      rfc3339_tooShort_of_dateOnly s.data (y, mo, d) (dateOnly_fields s.data (y, mo, d) h)
    constructor
    · rw [resolveStartTime, hts]
      show (if (ParseErrKind.tooShort = ParseErrKind.tooShort) then
        match parseDateOnly s.data with
        | Except.ok ymd => Except.ok (utcInstant (ymd.1 : Int) ymd.2.1 ymd.2.2 0 0 0)
        | Except.error k2 => Except.error (CTApiError.parseTime k2 s)
        else Except.error (CTApiError.parseTime ParseErrKind.tooShort s)) = _
      rw [if_pos rfl, h]
    · rw [resolveEndTime, hts]
      show (if (ParseErrKind.tooShort = ParseErrKind.tooShort) then
        match parseDateOnly s.data with
        | Except.ok ymd => Except.ok (utcInstant (ymd.1 : Int) ymd.2.1 ymd.2.2 23 59 59)
        | Except.error k2 => Except.error (CTApiError.parseTime k2 s)
        else Except.error (CTApiError.parseTime ParseErrKind.tooShort s)) = _
      rw [if_pos rfl, h]
  · intro e he
    cases hr : parseRfc3339 s.data with
    | ok t =>
      rw [resolveStartTime, hr] at he
      cases he
    | error k =>
      rw [resolveStartTime, hr] at he
      have he' : (if (k = ParseErrKind.tooShort) then
          match parseDateOnly s.data with
          | Except.ok ymd => Except.ok (utcInstant (ymd.1 : Int) ymd.2.1 ymd.2.2 0 0 0)
          | Except.error k2 => Except.error (CTApiError.parseTime k2 s)
          else Except.error (CTApiError.parseTime k s)) = Except.error e := he
      by_cases hk : k = ParseErrKind.tooShort
      · rw [if_pos hk] at he'
        cases hd : parseDateOnly s.data with
        | ok ymd =>
          rw [hd] at he'
          cases he'
        | error k2 =>
          rw [hd] at he'
          cases he'
          exact ⟨k2, rfl⟩
      · rw [if_neg hk] at he'
        cases he'
        exact ⟨k, rfl⟩
  · intro e he
    cases hr : parseRfc3339 s.data with
    | ok t =>
      rw [resolveEndTime, hr] at he
      cases he
    | error k =>
      rw [resolveEndTime, hr] at he
      have he' : (if (k = ParseErrKind.tooShort) then
          match parseDateOnly s.data with
          | Except.ok ymd => Except.ok (utcInstant (ymd.1 : Int) ymd.2.1 ymd.2.2 23 59 59)
          | Except.error k2 => Except.error (CTApiError.parseTime k2 s)
          else Except.error (CTApiError.parseTime k s)) = Except.error e := he
      by_cases hk : k = ParseErrKind.tooShort
      · rw [if_pos hk] at he'
        cases hd : parseDateOnly s.data with
        | ok ymd =>
          rw [hd] at he'
          cases he'
        | error k2 =>
          rw [hd] at he'
          cases he'
          exact ⟨k2, rfl⟩
      · rw [if_neg hk] at he'
        cases he'
        exact ⟨k, rfl⟩

/-- C6 witness: the resolution statement exercised on the date-only string
"2025-11-24". -/
theorem dateonly_resolution_witness :
    parseDateOnly "2025-11-24".data = .ok (2025, 11, 24) ∧
    (resolveStartTime "2025-11-24" = .ok (utcInstant (2025 : Int) 11 24 0 0 0) ∧
      resolveEndTime "2025-11-24" = .ok (utcInstant (2025 : Int) 11 24 23 59 59)) :=
  ⟨by decide, (dateonly_resolution_and_parse_errors "2025-11-24").1 2025 11 24 (by decide)⟩

/- # C7: note-derived group grants -/

theorem stripPrefixL_append (p r : List Char) : stripPrefixL p (p ++ r) = some r := by
  induction p with
  | nil => cases r <;> rfl
  | cons c p ih =>
    show (if c = c then stripPrefixL p (p ++ r) else none) = some r
    rw [if_pos rfl, ih]

/-- C7: the permission set resolved from a booking note is a superset of the
members of every group referenced by a whitespace-separated
`<prefix><gid>` token, plus the creator's transponder when known; and the
extracted group-id list depends only on the whitespace-split word list — it
is unchanged under whitespace variation and permuted under token
reordering. -/
theorem note_groups_superset_and_invariance (note magicPref : String)
    (groupMembers : Int → List Int) (creator : Option Int) :
    (∀ w ∈ splitWS note.data, ∀ rest gid, w = magicPref.data ++ rest →
      parseI64L rest = some gid →
      ∀ m ∈ groupMembers gid,
        m ∈ get_permitted_transponders groupMembers creator
          (groups_from_description note magicPref)) ∧
    (∀ ct, creator = some ct →
      ct ∈ get_permitted_transponders groupMembers creator
        (groups_from_description note magicPref)) ∧
    (∀ note2 : String, splitWS note2.data = splitWS note.data →
      groups_from_description note2 magicPref = groups_from_description note magicPref) ∧
    (∀ note2 : String, (splitWS note2.data).Perm (splitWS note.data) →
      (groups_from_description note2 magicPref).Perm
        (groups_from_description note magicPref)) := by
  refine ⟨?_, ?_, ?_, ?_⟩
  · intro w hw rest gid hwe hparse m hm
    have hgid : gid ∈ groups_from_description note magicPref := by
      apply List.mem_filterMap.mpr
      refine ⟨rest, ?_, hparse⟩
      apply List.mem_filterMap.mpr
      refine ⟨w, hw, ?_⟩
      rw [hwe]
      exact stripPrefixL_append magicPref.data rest
    exact List.mem_append_left _ (List.mem_flatMap.mpr ⟨gid, hgid, hm⟩)
  · intro ct hct
    apply List.mem_append_right
    rw [hct]
    exact List.mem_singleton.mpr rfl
  · intro note2 h12
    rw [groups_from_description, groups_from_description, h12]
  · intro note2 h12
    exact (h12.filterMap _).filterMap _

/-- C7 witness: the superset and invariance statement exercised on the note
"ACCESS:7 X" with prefix "ACCESS:", group 7 = {200}, creator transponder 100,
and the reordered note " X  ACCESS:7". -/
theorem note_groups_witness :
    ("ACCESS:7".data ∈ splitWS "ACCESS:7 X".data) ∧
    ("ACCESS:7".data = "ACCESS:".data ++ ['7']) ∧
    (parseI64L ['7'] = some 7) ∧
    ((200 : Int) ∈ scenarioGroupMembers 7) ∧
    ((200 : Int) ∈ get_permitted_transponders scenarioGroupMembers (some 100)
      (groups_from_description "ACCESS:7 X" "ACCESS:")) ∧
    ((100 : Int) ∈ get_permitted_transponders scenarioGroupMembers (some 100)
      (groups_from_description "ACCESS:7 X" "ACCESS:")) ∧
    (splitWS " X  ACCESS:7".data).Perm (splitWS "ACCESS:7 X".data) ∧
    (groups_from_description " X  ACCESS:7" "ACCESS:").Perm
      (groups_from_description "ACCESS:7 X" "ACCESS:") :=
  ⟨by decide, by decide, by decide, by decide,
    (note_groups_superset_and_invariance "ACCESS:7 X" "ACCESS:" scenarioGroupMembers
      (some 100)).1 "ACCESS:7".data (by decide) ['7'] 7 (by decide) (by decide) 200
      (by decide),
    (note_groups_superset_and_invariance "ACCESS:7 X" "ACCESS:" scenarioGroupMembers
      (some 100)).2.1 100 rfl,
    by decide,
    (note_groups_superset_and_invariance "ACCESS:7 X" "ACCESS:" scenarioGroupMembers
      (some 100)).2.2.2 " X  ACCESS:7" (by decide)⟩

/- # C8: lazy directory enumeration -/

theorem parseSaltoUser_error (r : RawRecord) (e : StreamErr)
    (h : parseSaltoUser r = .error e) : e = .deserialize := by
  rcases r with ⟨ei, ti⟩
  cases ei with
  | none =>
    cases h
    rfl
  | some x =>
    cases ti with
    | none =>
      cases h
      rfl
    | some t =>
      have h' : (match parseI64L t.data with
          | some n => Except.ok (⟨x, n⟩ : SaltoUser)
          | none => Except.error StreamErr.deserialize) = Except.error e := h
      cases hp : parseI64L t.data with
      | some n =>
        rw [hp] at h'
        cases h'
      | none =>
        rw [hp] at h'
        cases h'
        rfl

theorem runStream_drain (server : Option RawRecord → List RawRecord)
    (buf : List RawRecord) (f : Nat) (cursor : Option RawRecord) :
    runStream server (f + buf.length) cursor buf
      = buf.map parseSaltoUser ++ runStream server f cursor [] := by
  induction buf with
  | nil => rfl
  | cons r rest ih =>
    show parseSaltoUser r :: runStream server (f + rest.length) cursor rest = _
    rw [ih]
    rfl

theorem runStream_pages (pages : List (List RawRecord))
    (server : Option RawRecord → List RawRecord) (cursor : Option RawRecord)
    (extra : Nat) (hserve : servesPages server cursor pages = true) :
    runStream server (pagesFuel pages + extra) cursor []
      = pages.flatten.map parseSaltoUser := by
  induction pages generalizing cursor extra with
  | nil =>
    have hcur : server cursor = [] := of_decide_eq_true hserve
    have hf : pagesFuel [] + extra = extra + 1 := by
      simp [pagesFuel]
      omega
    rw [hf]
    show (match server cursor with
      | [] => ([] : List (Except StreamErr SaltoUser))
      | p :: ps => runStream server extra (some (ps.getLastD p)) (p :: ps)) = _
    rw [hcur]
    rfl
  | cons p rest ih =>
    cases p with
    | nil => cases hserve
    | cons q qs =>
      have hparts := Bool.and_eq_true_iff.mp hserve
      have hcur : server cursor = q :: qs := of_decide_eq_true hparts.1
      have hf : pagesFuel ((q :: qs) :: rest) + extra
          = ((pagesFuel rest + extra) + (q :: qs).length) + 1 := by
        simp [pagesFuel]
        omega
      rw [hf]
      show (match server cursor with
        | [] => ([] : List (Except StreamErr SaltoUser))
        | p :: ps => runStream server ((pagesFuel rest + extra) + (q :: qs).length)
            (some (ps.getLastD p)) (p :: ps)) = _
      rw [hcur]
      show runStream server ((pagesFuel rest + extra) + (q :: qs).length)
        (some (qs.getLastD q)) (q :: qs) = _
      rw [runStream_drain server (q :: qs) (pagesFuel rest + extra) (some (qs.getLastD q)),
        ih (some (qs.getLastD q)) extra hparts.2]
      rw [List.flatten_cons, List.map_append]

theorem consumeUsers_map_parse (rs : List RawRecord)
    (res : List (Int × Option String)) :
    consumeUsers res (rs.map parseSaltoUser)
      = .ok ((rs.filterMap (fun r => (parseSaltoUser r).toOption)).foldl noteUser res) := by
  induction rs generalizing res with
  | nil => rfl
  | cons r rs ih =>
    simp only [List.map_cons, List.filterMap_cons]
    cases hp : parseSaltoUser r with
    | ok u =>
      exact ih (noteUser res u)
    | error e =>
      have he : e = .deserialize := parseSaltoUser_error r e hp
      subst he
      exact ih res

/-- C8: against a server that answers the empty cursor with the first page,
each cursor equal to a page's full raw last record with the following
nonempty page, and the cursor after the last page with the empty page
(`servesPages`), the enumeration yields exactly the parse results of the N
pages' records in order and then terminates (any fuel beyond the required
polls changes nothing); consuming it as `get_ext_ids_by_transponder` does
skips each unparseable record individually and never aborts, folding exactly
the well-formed users into the requested transponder mapping. -/
theorem user_enumeration_pages_exact (server : Option RawRecord → List RawRecord)
    (pages : List (List RawRecord)) (extra : Nat) (transponders : List Int)
    (hserve : servesPages server none pages = true) :
    runStream server (pagesFuel pages + extra) none []
      = pages.flatten.map parseSaltoUser ∧
    get_ext_ids_by_transponder server (pagesFuel pages + extra) transponders
      = .ok ((pages.flatten.filterMap (fun r => (parseSaltoUser r).toOption)).foldl
          noteUser (transponders.map (fun tr => (tr, none)))) := by
  have h1 := runStream_pages pages server none extra hserve
  refine ⟨h1, ?_⟩
  rw [get_ext_ids_by_transponder, h1, consumeUsers_map_parse]

/-- C8 witness: the enumeration statement exercised on two pages with one
malformed record, requesting transponders 1, 3 and 9. -/
theorem user_enumeration_pages_exact_witness :
    servesPages witnessServer none witnessPages = true ∧
    (runStream witnessServer (pagesFuel witnessPages + 0) none []
      = witnessPages.flatten.map parseSaltoUser ∧
    get_ext_ids_by_transponder witnessServer (pagesFuel witnessPages + 0) [1, 3, 9]
      = .ok ((witnessPages.flatten.filterMap
          (fun r => (parseSaltoUser r).toOption)).foldl noteUser
          ([1, 3, 9].map (fun tr => (tr, none))))) :=
  ⟨by decide, user_enumeration_pages_exact witnessServer witnessPages 0 [1, 3, 9]
    (by decide)⟩
